import Mathlib

set_option maxHeartbeats 2000000
set_option linter.unreachableTactic false
set_option linter.unusedTactic false
set_option linter.unnecessarySeqFocus false

/-!
Verification development for the streaming tool-call parser of the
agent-dio repository (class NativeToolCallParser, together with the
tool-name tables it consults).  JavaScript runtime values that flow
through the parser are modelled by an explicit JSON value type; numeric
literals are modelled as integers (no claim depends on fractional
numbers).  A JavaScript value that is absent (undefined) is modelled by
Option.none wherever the code distinguishes absence from null.
-/

/-- Model of a JavaScript/JSON runtime value as it flows through the
parser.  Numbers are modelled as integers. -/
inductive Json where
  | null : Json
  | bool (b : Bool) : Json
  | num (n : Int) : Json
  | str (s : String) : Json
  | arr (elems : List Json) : Json
  | obj (fields : List (String × Json)) : Json

/-- Association-list lookup mirroring JavaScript Map.get (first match;
keys are kept unique by mapSet). -/
def mapGet {α β : Type} [DecidableEq α] (m : List (α × β)) (k : α) : Option β :=
  match m with
  | [] => none
  | (k', v) :: rest => if k' = k then some v else mapGet rest k

/-- Association-list update mirroring JavaScript Map.set: replaces the
value in place when the key is present, otherwise appends, preserving
insertion order exactly as a JavaScript Map does. -/
def mapSet {α β : Type} [DecidableEq α] (m : List (α × β)) (k : α) (v : β) : List (α × β) :=
  match m with
  | [] => [(k, v)]
  | (k', v') :: rest => if k' = k then (k, v) :: rest else (k', v') :: mapSet rest k v

/-- Association-list removal mirroring JavaScript Map.delete. -/
def mapDelete {α β : Type} [DecidableEq α] (m : List (α × β)) (k : α) : List (α × β) :=
  match m with
  | [] => []
  | (k', v) :: rest => if k' = k then mapDelete rest k else (k', v) :: mapDelete rest k

/-- Property access on a JavaScript value: obj.k is the bound value for
an object with that key, and undefined (none) for objects without the
key and for non-object values.  (Access on null throws in JavaScript;
the code paths where that matters guard it via jsEntriesE below.) -/
def jget (j : Json) (k : String) : Option Json :=
  match j with
  | .obj fields => mapGet fields k
  | _ => none

/-- Property lookup function of a value, used by the per-tool argument
projection tables. -/
def jgetF (j : Json) : String → Option Json := fun k => jget j k

/-- JavaScript truthiness of a value. -/
def jsTruthy : Json → Bool
  | .null => false
  | .bool b => b
  | .num n => n ≠ 0
  | .str s => s ≠ ""
  | .arr _ => true
  | .obj _ => true

/-- JavaScript truthiness of a possibly-undefined value. -/
def jsTruthyO : Option Json → Bool
  | none => false
  | some v => jsTruthy v

/-- Model of the JavaScript idiom (v || default-empty-object) used on
the partial-parse result. -/
def jsOr (j : Json) : Json :=
  if jsTruthy j then j else .obj []

/-- Whether a possibly-undefined value is a JavaScript array. -/
def isArrO : Option Json → Bool
  | some (.arr _) => true
  | _ => false

/-- Object.entries on a non-null value: fields of an object, indexed
elements of an array, indexed characters of a string, empty for other
primitives. -/
def jsEntries : Json → List (String × Json)
  | .obj fields => fields
  | .arr elems => (elems.enum.map fun p => (toString p.1, p.2))
  | .str s => (s.toList.enum.map fun p => (toString p.1, Json.str (String.singleton p.2)))
  | _ => []

/-- Object.entries with the JavaScript exception on null made explicit:
none models the TypeError thrown by Object.entries(null), which the
surrounding try/catch of the strict parse converts into a failure. -/
def jsEntriesE : Json → Option (List (String × Json))
  | .null => none
  | j => some (jsEntries j)

/-- Character list prefix test, modelling String.prototype.startsWith. -/
def strStartsWith (s pre : String) : Bool :=
  pre.toList.isPrefixOf s.toList

/-- Drop the first n characters of a string. -/
def strDrop (s : String) (n : Nat) : String :=
  ⟨s.toList.drop n⟩

/-- Splitting worker over character lists (fuel-indexed; the fuel is
always at least the length of the input plus one at the entry point). -/
def splitGo (sep : List Char) : Nat → List Char → List Char → List (List Char)
  | 0, cs, cur => [cur ++ cs]
  | _ + 1, [], cur => [cur]
  | fuel + 1, c :: rest, cur =>
    if sep ≠ [] ∧ sep.isPrefixOf (c :: rest) then
      cur :: splitGo sep fuel (List.drop sep.length (c :: rest)) []
    else
      splitGo sep fuel rest (cur ++ [c])

/-- Split a string on a non-empty separator, modelling the JavaScript
split used by the dynamic-name utilities. -/
def splitOnStr (s sep : String) : List String :=
  (splitGo sep.toList (s.length + 1) s.toList []).map fun l => ⟨l⟩

/-- Whitespace skipping for the strict JSON decoder. -/
def skipWs : List Char → List Char
  | c :: cs => if c = ' ' ∨ c = '\t' ∨ c = '\n' ∨ c = '\r' then skipWs cs else c :: cs
  | [] => []

/-- Hex digit value, for unicode escapes in JSON strings. -/
def hexVal (c : Char) : Option Nat :=
  if '0' ≤ c ∧ c ≤ '9' then some (c.toNat - '0'.toNat)
  else if 'a' ≤ c ∧ c ≤ 'f' then some (c.toNat - 'a'.toNat + 10)
  else if 'A' ≤ c ∧ c ≤ 'F' then some (c.toNat - 'A'.toNat + 10)
  else none

/-- Decode the body of a JSON string literal (after the opening quote),
returning the decoded characters and the remaining input. -/
def parseStrChars : List Char → Option (List Char × List Char)
  | [] => none
  | '"' :: rest => some ([], rest)
  | '\\' :: 'u' :: h1 :: h2 :: h3 :: h4 :: rest => do
    let n1 ← hexVal h1
    let n2 ← hexVal h2
    let n3 ← hexVal h3
    let n4 ← hexVal h4
    let (cs, r) ← parseStrChars rest
    pure (Char.ofNat (((n1 * 16 + n2) * 16 + n3) * 16 + n4) :: cs, r)
  | '\\' :: e :: rest => do
    let c ← match e with
      | '"' => some '"'
      | '\\' => some '\\'
      | '/' => some '/'
      | 'n' => some '\n'
      | 't' => some '\t'
      | 'r' => some '\r'
      | 'b' => some (Char.ofNat 8)
      | 'f' => some (Char.ofNat 12)
      | _ => none
    let (cs, r) ← parseStrChars rest
    pure (c :: cs, r)
  | c :: rest => do
    let (cs, r) ← parseStrChars rest
    pure (c :: cs, r)

/-- Accumulate a decimal digit list into a natural number. -/
def digitsToNat (ds : List Char) : Nat :=
  ds.foldl (fun acc c => acc * 10 + (c.toNat - '0'.toNat)) 0

/-- Decode an integer JSON number literal.  Fractional and exponent
forms are outside this model (no claim evaluates on them). -/
def parseNumber (cs : List Char) : Option (Json × List Char) :=
  let (sign, cs1) := match cs with
    | '-' :: rest => (true, rest)
    | _ => (false, cs)
  let ds := cs1.takeWhile Char.isDigit
  let rest := cs1.dropWhile Char.isDigit
  if ds = [] then none
  else match rest with
    | '.' :: _ => none
    | 'e' :: _ => none
    | 'E' :: _ => none
    | _ =>
      let n : Int := Int.ofNat (digitsToNat ds)
      some (.num (if sign then -n else n), rest)

mutual

/-- Strict JSON value decoder (recursive descent, fuel-indexed). -/
def parseVal : Nat → List Char → Option (Json × List Char)
  | 0, _ => none
  | fuel + 1, cs =>
    match skipWs cs with
    | 'n' :: 'u' :: 'l' :: 'l' :: rest => some (.null, rest)
    | 't' :: 'r' :: 'u' :: 'e' :: rest => some (.bool true, rest)
    | 'f' :: 'a' :: 'l' :: 's' :: 'e' :: rest => some (.bool false, rest)
    | '"' :: rest => (parseStrChars rest).map fun p => (.str ⟨p.1⟩, p.2)
    | '{' :: rest =>
      (match skipWs rest with
       | '}' :: r2 => some (.obj [], r2)
       | r1 => parseMembers fuel r1 [])
    | '[' :: rest =>
      (match skipWs rest with
       | ']' :: r2 => some (.arr [], r2)
       | r1 => parseElements fuel r1 [])
    | c :: rest => if c = '-' ∨ c.isDigit then parseNumber (c :: rest) else none
    | [] => none

/-- Decode the members of a JSON object (duplicate keys keep the last
occurrence in first-occurrence position, as JSON.parse does). -/
def parseMembers : Nat → List Char → List (String × Json) → Option (Json × List Char)
  | 0, _, _ => none
  | fuel + 1, cs, acc =>
    match skipWs cs with
    | '"' :: rest => do
      let (keyChars, r1) ← parseStrChars rest
      match skipWs r1 with
      | ':' :: r2 => do
        let (v, r3) ← parseVal fuel r2
        let acc' := mapSet acc (⟨keyChars⟩ : String) v
        match skipWs r3 with
        | ',' :: r4 => parseMembers fuel r4 acc'
        | '}' :: r4 => some (.obj acc', r4)
        | _ => none
      | _ => none
    | _ => none

/-- Decode the elements of a JSON array. -/
def parseElements : Nat → List Char → List Json → Option (Json × List Char)
  | 0, _, _ => none
  | fuel + 1, cs, acc => do
    let (v, r1) ← parseVal fuel cs
    match skipWs r1 with
    | ',' :: r2 => parseElements fuel r2 (acc ++ [v])
    | ']' :: r2 => some (.arr (acc ++ [v]), r2)
    | _ => none

end

/-- Model of JSON.parse: strict whole-document decode, none on any
syntax error (the thrown SyntaxError). -/
def jsonParse (s : String) : Option Json :=
  match parseVal (s.length + 1) s.toList with
  | some (v, rest) => if skipWs rest = [] then some v else none
  | none => none

/-- Escape one character for JSON string output. -/
def escChar (c : Char) : List Char :=
  if c = '"' then ['\\', '"']
  else if c = '\\' then ['\\', '\\']
  else if c = '\n' then ['\\', 'n']
  else if c = '\t' then ['\\', 't']
  else if c = '\r' then ['\\', 'r']
  else [c]

/-- Serialize a string to a JSON string literal. -/
def strLit (s : String) : String :=
  "\"" ++ (⟨s.toList.flatMap escChar⟩ : String) ++ "\""

mutual

/-- Model of JSON.stringify restricted to the values of this model. -/
def jsonStringify : Json → String
  | .null => "null"
  | .bool true => "true"
  | .bool false => "false"
  | .num n => toString n
  | .str s => strLit s
  | .arr elems => "[" ++ String.intercalate "," (stringifyEach elems) ++ "]"
  | .obj fields => "\x7b" ++ String.intercalate "," (stringifyFieldEach fields) ++ "\x7d"

/-- Serialize each element of a JSON array. -/
def stringifyEach : List Json → List String
  | [] => []
  | j :: rest => jsonStringify j :: stringifyEach rest

/-- Serialize each member of a JSON object. -/
def stringifyFieldEach : List (String × Json) → List String
  | [] => []
  | (k, v) :: rest => (strLit k ++ ":" ++ jsonStringify v) :: stringifyFieldEach rest

end

/-- Stringification used when filling the legacy params record: strings
pass through unchanged, everything else goes through JSON.stringify. -/
def stringifyVal : Json → String
  | .str s => s
  | v => jsonStringify v

/-- The closed static tool-name set, transcribed from
packages/types/src/tool.ts (export const toolNames). -/
def toolNames : List String :=
  ["execute_command", "read_file", "read_command_output", "write_to_file",
   "apply_diff", "search_and_replace", "search_replace", "edit_file",
   "apply_patch", "search_files", "list_files", "browser_action",
   "use_mcp_tool", "access_mcp_resource", "ask_followup_question",
   "attempt_completion", "switch_mode", "new_task", "fetch_instructions",
   "codebase_search", "update_todo_list", "run_slash_command",
   "generate_image", "custom_tool",
   "browser_open", "browser_close", "browser_action_input",
   "browser_navigate", "browser_reload", "browser_screenshot",
   "browser_execute_script", "browser_inspect_element",
   "browser_get_errors", "browser_get_console_logs",
   "browser_get_performance", "browser_get_state", "browser_set_viewport",
   "browser_get_network_requests",
   "project_get_active", "project_start", "project_stop",
   "canvas_list", "canvas_get_active", "canvas_create", "canvas_open",
   "component_add", "component_add_batch", "component_remove",
   "component_get_info", "component_list", "component_rebuild",
   "canvas_validate_components"]

/-- The fixed vocabulary of legacy parameter names, transcribed from
shared/tools (export const toolParamNames); the source list repeats the
key limit, which is kept here verbatim. -/
def toolParamNames : List String :=
  ["command", "path", "content", "regex", "file_pattern", "recursive",
   "action", "url", "coordinate", "text", "server_name", "tool_name",
   "arguments", "uri", "question", "result", "diff", "mode_slug",
   "reason", "line", "mode", "message", "cwd", "follow_up", "task",
   "size", "query", "args", "start_line", "end_line", "todos", "prompt",
   "image", "files", "operations", "patch", "file_path", "old_string",
   "new_string", "expected_replacements", "artifact_id", "search",
   "offset", "limit", "selector", "includeInherited", "script",
   "ignoreCache", "limit", "type", "projectPath", "port", "name",
   "nameFilter", "sortBy", "sortDirection", "canvasId", "folderPath",
   "entryFile", "framework", "componentId", "deleteSourceCode",
   "components", "width", "height", "deviceScaleFactor", "mobile",
   "includeStaticAssets", "urlFilter", "method", "statusFilter", "key",
   "modifiers", "deltaX", "deltaY"]

/-- The closed alias table, transcribed from shared/tools
(export const TOOL_ALIASES): alias name to canonical tool name. -/
def TOOL_ALIASES : List (String × String) :=
  [("write_file", "write_to_file")]

/-- Modelled from the spec: resolveToolAlias is imported from
prompts/tools/filter-tools-for-mode, which is not under src.  Spec 4.3:
resolve looks the name up in the closed alias table (TOOL_ALIASES,
which is under src in shared/tools) and returns the input unchanged
when absent. -/
def resolveToolAlias (name : String) : String :=
  match mapGet TOOL_ALIASES name with
  | some canonical => canonical
  | none => name

/-- The reserved dynamic-tool name marker, source constant
MCP_TOOL_PREFIX of utils/mcp-name (value fixed by the source comments
in the parser: mcp--serverName--toolName). -/
def mcpToolPre : String := "mcp"

/-- The reserved separator, source constant MCP_TOOL_SEPARATOR of
utils/mcp-name. -/
def mcpToolSep : String := "--"

/-- The combined marker-plus-separator the parser tests names against
(local variable mcpPrefix of the source). -/
def mcpNamePre : String := mcpToolPre ++ mcpToolSep

/-- Modelled from the spec: normalizeMcpToolName of utils/mcp-name is
not under src.  Spec 4.4: normalize rewrites the known alternate
separator variant (double underscore, used by models that cannot emit
the canonical separator) into the canonical dynamic-name format, so
that mcp__serverA__toolB parses like mcp--serverA--toolB; other names
are returned unchanged. -/
def normalizeMcpToolName (name : String) : String :=
  if strStartsWith name (mcpToolPre ++ "__") then
    String.intercalate mcpToolSep (splitOnStr name "__")
  else name

/-- Modelled from the spec: parseMcpToolName of utils/mcp-name is not
under src.  Spec 4.4: parse splits a canonical dynamic name into
exactly two components after the reserved marker and separator, and is
null when the structure does not match (wrong number of
separator-delimited segments). -/
def parseMcpToolName (name : String) : Option (String × String) :=
  if strStartsWith name mcpNamePre then
    match splitOnStr (strDrop name mcpNamePre.length) mcpToolSep with
    | [serverName, toolName] => some (serverName, toolName)
    | _ => none
  else none

/-- Modelled from the spec: parseJSON of the third-party partial-json
package (the lenient decoder of the partial path) is not repository
code.  Section 9 of the spec fixes its contract at this interface: it
agrees with the strict decoder on syntactically complete valid
documents; its best-effort recovery on truncated documents is not
needed by any claim and is modelled as failure. -/
def parsePartialJSON (s : String) : Option Json :=
  jsonParse s

/-- Static method coerceOptionalBoolean of NativeToolCallParser:
booleans pass through, trimmed lowercase string literals true and false
convert, everything else (including undefined) is undefined. -/
def coerceOptionalBoolean (value : Option Json) : Option Bool :=
  match value with
  | some (.bool b) => some b
  | some (.str s) =>
    let lower := s.trim.toLower
    if lower = "true" then some true
    else if lower = "false" then some false
    else none
  | _ => none

/-- JavaScript Number conversion as far as this model needs it:
integers pass through, booleans and null coerce numerically, numeric
strings parse, and everything non-numeric is the not-a-number marker,
modelled as Json.null.  No claim depends on this conversion; it only
feeds convertFileEntries, which both pipelines share. -/
def jsNumberOf (value : Option Json) : Json :=
  match value with
  | some (.num n) => .num n
  | some (.bool true) => .num 1
  | some (.bool false) => .num 0
  | some .null => .num 0
  | some (.str s) =>
    (match s.trim.toInt? with
     | some n => .num n
     | none => if s.trim = "" then .num 0 else .null)
  | _ => .null

/-- Helper of convertFileEntries: one line_ranges element in any of the
three accepted formats (tuple, object, legacy string), null when the
format does not match. -/
def convertRange (range : Json) : Option Json :=
  match range with
  | .arr (a :: b :: _) =>
    some (.obj [("start", jsNumberOf (some a)), ("end", jsNumberOf (some b))])
  | .obj fields =>
    if (mapGet fields "start").isSome ∧ (mapGet fields "end").isSome then
      some (.obj [("start", jsNumberOf (mapGet fields "start")),
                  ("end", jsNumberOf (mapGet fields "end"))])
    else none
  | .str s =>
    (match splitOnStr s "-" with
     | [a, b] =>
       if a ≠ "" ∧ b ≠ "" ∧ a.toList.all Char.isDigit ∧ b.toList.all Char.isDigit then
         some (.obj [("start", .num (Int.ofNat (digitsToNat a.toList))),
                     ("end", .num (Int.ofNat (digitsToNat b.toList)))])
       else none
     | _ => none)
  | _ => none

/-- Static method convertFileEntries of NativeToolCallParser: maps raw
file entries with line_ranges to FileEntry objects with lineRanges,
dropping unconvertible ranges; a missing path property is modelled as
an absent field. -/
def convertFileEntries (files : List Json) : Json :=
  .arr (files.map fun file =>
    let pathPart : List (String × Json) :=
      match jget file "path" with
      | some p => [("path", p)]
      | none => []
    let rangesPart : List (String × Json) :=
      match jget file "line_ranges" with
      | some (.arr ranges) => [("lineRanges", .arr (ranges.filterMap convertRange))]
      | _ => []
    .obj (pathPart ++ rangesPart))

/-- Typed native arguments as constructed by the parser: either an
object literal with possibly-undefined members (the per-tool cases), or
the raw untyped args object passed through for registry-backed custom
tools (the default case of the strict switch). -/
inductive NativeArgsVal where
  | fields (l : List (String × Option Json)) : NativeArgsVal
  | raw (j : Json) : NativeArgsVal

/-- The typed fields actually present (not undefined) in a native-args
value; for the raw pass-through this is the set of object entries. -/
def presentFields : NativeArgsVal → List (String × Json)
  | .fields l => l.filterMap fun p => p.2.map fun v => (p.1, v)
  | .raw j => jsEntries j

/-- Partial-mode per-tool argument projection: the switch of
createPartialToolUse, transcribed case by case, as a function of the
tool name and of property lookup on the leniently parsed args.  none
models nativeArgs staying undefined. -/
def buildPartialNativeArgsG (name : String) (get : String → Option Json) : Option NativeArgsVal :=
  match name with
  | "read_file" =>
    (match get "files" with
     | some (.arr xs) => some (.fields [("files", some (convertFileEntries xs))])
     | _ => none)
  | "attempt_completion" =>
    if jsTruthyO (get "result") then some (.fields [("result", get "result")]) else none
  | "execute_command" =>
    if jsTruthyO (get "command") then
      some (.fields [("command", get "command"), ("cwd", get "cwd")])
    else none
  | "write_to_file" =>
    if jsTruthyO (get "path") ∨ jsTruthyO (get "content") then
      some (.fields [("path", get "path"), ("content", get "content")])
    else none
  | "ask_followup_question" =>
    if (get "question").isSome ∨ (get "follow_up").isSome then
      some (.fields [("question", get "question"),
        ("follow_up", if isArrO (get "follow_up") then get "follow_up" else none)])
    else none
  | "apply_diff" =>
    if (get "path").isSome ∨ (get "diff").isSome then
      some (.fields [("path", get "path"), ("diff", get "diff")])
    else none
  | "browser_action" =>
    if (get "action").isSome then
      some (.fields [("action", get "action"), ("url", get "url"),
        ("coordinate", get "coordinate"), ("size", get "size"),
        ("text", get "text"), ("path", get "path")])
    else none
  | "codebase_search" =>
    if (get "query").isSome then
      some (.fields [("query", get "query"), ("path", get "path")])
    else none
  | "fetch_instructions" =>
    if (get "task").isSome then some (.fields [("task", get "task")]) else none
  | "generate_image" =>
    if (get "prompt").isSome ∨ (get "path").isSome then
      some (.fields [("prompt", get "prompt"), ("path", get "path"),
        ("image", get "image")])
    else none
  | "run_slash_command" =>
    if (get "command").isSome then
      some (.fields [("command", get "command"), ("args", get "args")])
    else none
  | "search_files" =>
    if (get "path").isSome ∨ (get "regex").isSome then
      some (.fields [("path", get "path"), ("regex", get "regex"),
        ("file_pattern", get "file_pattern")])
    else none
  | "switch_mode" =>
    if (get "mode_slug").isSome ∨ (get "reason").isSome then
      some (.fields [("mode_slug", get "mode_slug"), ("reason", get "reason")])
    else none
  | "update_todo_list" =>
    if (get "todos").isSome then some (.fields [("todos", get "todos")]) else none
  | "use_mcp_tool" =>
    if (get "server_name").isSome ∨ (get "tool_name").isSome then
      some (.fields [("server_name", get "server_name"),
        ("tool_name", get "tool_name"), ("arguments", get "arguments")])
    else none
  | "apply_patch" =>
    if (get "patch").isSome then some (.fields [("patch", get "patch")]) else none
  | "search_replace" =>
    if (get "file_path").isSome ∨ (get "old_string").isSome ∨ (get "new_string").isSome then
      some (.fields [("file_path", get "file_path"),
        ("old_string", get "old_string"), ("new_string", get "new_string")])
    else none
  | "search_and_replace" =>
    if (get "path").isSome ∨ (get "operations").isSome then
      some (.fields [("path", get "path"), ("operations", get "operations")])
    else none
  | "edit_file" =>
    if (get "file_path").isSome ∨ (get "old_string").isSome ∨ (get "new_string").isSome then
      some (.fields [("file_path", get "file_path"),
        ("old_string", get "old_string"), ("new_string", get "new_string"),
        ("expected_replacements", get "expected_replacements")])
    else none
  | "list_files" =>
    if (get "path").isSome then
      some (.fields [("path", get "path"),
        ("recursive", (coerceOptionalBoolean (get "recursive")).map Json.bool)])
    else none
  | "new_task" =>
    if (get "mode").isSome ∨ (get "message").isSome then
      some (.fields [("mode", get "mode"), ("message", get "message"),
        ("todos", get "todos")])
    else none
  | "browser_open" => some (.fields [("url", get "url")])
  | "browser_close" => some (.fields [])
  | "browser_action_input" =>
    some (.fields [("action", get "action"), ("coordinate", get "coordinate"),
      ("text", get "text"), ("key", get "key"), ("modifiers", get "modifiers"),
      ("deltaX", get "deltaX"), ("deltaY", get "deltaY")])
  | "browser_navigate" => some (.fields [("url", get "url")])
  | "browser_reload" => some (.fields [("ignoreCache", get "ignoreCache")])
  | "browser_screenshot" => some (.fields [])
  | "browser_execute_script" => some (.fields [("script", get "script")])
  | "browser_inspect_element" =>
    some (.fields [("selector", get "selector"),
      ("includeInherited", get "includeInherited")])
  | "browser_get_errors" => some (.fields [("limit", get "limit")])
  | "browser_get_console_logs" =>
    some (.fields [("limit", get "limit"), ("type", get "type")])
  | "browser_get_performance" => some (.fields [])
  | "browser_get_state" => some (.fields [])
  | "browser_set_viewport" =>
    some (.fields [("width", get "width"), ("height", get "height"),
      ("deviceScaleFactor", get "deviceScaleFactor"), ("mobile", get "mobile")])
  | "browser_get_network_requests" =>
    some (.fields [("includeStaticAssets", get "includeStaticAssets"),
      ("urlFilter", get "urlFilter"), ("method", get "method"),
      ("statusFilter", get "statusFilter"), ("limit", get "limit")])
  | "project_get_active" => some (.fields [])
  | "project_start" =>
    some (.fields [("projectPath", get "projectPath"), ("port", get "port")])
  | "project_stop" => some (.fields [])
  | "canvas_list" =>
    some (.fields [("nameFilter", get "nameFilter"), ("sortBy", get "sortBy"),
      ("sortDirection", get "sortDirection")])
  | "canvas_get_active" => some (.fields [])
  | "canvas_create" => some (.fields [("name", get "name")])
  | "canvas_open" =>
    some (.fields [("canvasId", get "canvasId"), ("name", get "name")])
  | "canvas_validate_components" => some (.fields [("canvasId", get "canvasId")])
  | "component_add" =>
    some (.fields [("folderPath", get "folderPath"), ("canvasId", get "canvasId"),
      ("name", get "name"), ("entryFile", get "entryFile"),
      ("framework", get "framework")])
  | "component_add_batch" => some (.fields [("components", get "components")])
  | "component_remove" =>
    some (.fields [("componentId", get "componentId"),
      ("deleteSourceCode", get "deleteSourceCode")])
  | "component_get_info" => some (.fields [("componentId", get "componentId")])
  | "component_list" => some (.fields [("canvasId", get "canvasId")])
  | "component_rebuild" => some (.fields [("componentId", get "componentId")])
  | _ => none

/-- Strict-mode per-tool argument projection: the switch of
parseToolCall, transcribed case by case.  The custom registry is the
injected predicate for registry-backed ad-hoc tool names (supplied as a
list of names); the default case passes the raw args object through for
such names.  none models nativeArgs staying undefined. -/
def buildNativeArgsG (custom : List String) (name : String) (get : String → Option Json)
    (rawArgs : Json) : Option NativeArgsVal :=
  match name with
  | "read_file" =>
    (match get "files" with
     | some (.arr xs) => some (.fields [("files", some (convertFileEntries xs))])
     | _ => none)
  | "attempt_completion" =>
    if jsTruthyO (get "result") then some (.fields [("result", get "result")]) else none
  | "execute_command" =>
    if jsTruthyO (get "command") then
      some (.fields [("command", get "command"), ("cwd", get "cwd")])
    else none
  | "apply_diff" =>
    if (get "path").isSome ∧ (get "diff").isSome then
      some (.fields [("path", get "path"), ("diff", get "diff")])
    else none
  | "search_and_replace" =>
    if (get "path").isSome ∧ (get "operations").isSome ∧ isArrO (get "operations") then
      some (.fields [("path", get "path"), ("operations", get "operations")])
    else none
  | "ask_followup_question" =>
    if (get "question").isSome ∧ (get "follow_up").isSome then
      some (.fields [("question", get "question"), ("follow_up", get "follow_up")])
    else none
  | "browser_action" =>
    if (get "action").isSome then
      some (.fields [("action", get "action"), ("url", get "url"),
        ("coordinate", get "coordinate"), ("size", get "size"),
        ("text", get "text"), ("path", get "path")])
    else none
  | "codebase_search" =>
    if (get "query").isSome then
      some (.fields [("query", get "query"), ("path", get "path")])
    else none
  | "fetch_instructions" =>
    if (get "task").isSome then some (.fields [("task", get "task")]) else none
  | "generate_image" =>
    if (get "prompt").isSome ∧ (get "path").isSome then
      some (.fields [("prompt", get "prompt"), ("path", get "path"),
        ("image", get "image")])
    else none
  | "run_slash_command" =>
    if (get "command").isSome then
      some (.fields [("command", get "command"), ("args", get "args")])
    else none
  | "search_files" =>
    if (get "path").isSome ∧ (get "regex").isSome then
      some (.fields [("path", get "path"), ("regex", get "regex"),
        ("file_pattern", get "file_pattern")])
    else none
  | "switch_mode" =>
    if (get "mode_slug").isSome ∧ (get "reason").isSome then
      some (.fields [("mode_slug", get "mode_slug"), ("reason", get "reason")])
    else none
  | "update_todo_list" =>
    if (get "todos").isSome then some (.fields [("todos", get "todos")]) else none
  | "read_command_output" =>
    if (get "artifact_id").isSome then
      some (.fields [("artifact_id", get "artifact_id"), ("search", get "search"),
        ("offset", get "offset"), ("limit", get "limit")])
    else none
  | "write_to_file" =>
    if (get "path").isSome ∧ (get "content").isSome then
      some (.fields [("path", get "path"), ("content", get "content")])
    else none
  | "use_mcp_tool" =>
    if (get "server_name").isSome ∧ (get "tool_name").isSome then
      some (.fields [("server_name", get "server_name"),
        ("tool_name", get "tool_name"), ("arguments", get "arguments")])
    else none
  | "access_mcp_resource" =>
    if (get "server_name").isSome ∧ (get "uri").isSome then
      some (.fields [("server_name", get "server_name"), ("uri", get "uri")])
    else none
  | "apply_patch" =>
    if (get "patch").isSome then some (.fields [("patch", get "patch")]) else none
  | "search_replace" =>
    if (get "file_path").isSome ∧ (get "old_string").isSome ∧ (get "new_string").isSome then
      some (.fields [("file_path", get "file_path"),
        ("old_string", get "old_string"), ("new_string", get "new_string")])
    else none
  | "edit_file" =>
    if (get "file_path").isSome ∧ (get "old_string").isSome ∧ (get "new_string").isSome then
      some (.fields [("file_path", get "file_path"),
        ("old_string", get "old_string"), ("new_string", get "new_string"),
        ("expected_replacements", get "expected_replacements")])
    else none
  | "list_files" =>
    if (get "path").isSome then
      some (.fields [("path", get "path"),
        ("recursive", (coerceOptionalBoolean (get "recursive")).map Json.bool)])
    else none
  | "new_task" =>
    if (get "mode").isSome ∧ (get "message").isSome then
      some (.fields [("mode", get "mode"), ("message", get "message"),
        ("todos", get "todos")])
    else none
  | "browser_open" => some (.fields [("url", get "url")])
  | "browser_close" => some (.fields [])
  | "browser_action_input" =>
    if (get "action").isSome then
      some (.fields [("action", get "action"), ("coordinate", get "coordinate"),
        ("text", get "text"), ("key", get "key"), ("modifiers", get "modifiers"),
        ("deltaX", get "deltaX"), ("deltaY", get "deltaY")])
    else none
  | "browser_navigate" =>
    if (get "url").isSome then some (.fields [("url", get "url")]) else none
  | "browser_reload" => some (.fields [("ignoreCache", get "ignoreCache")])
  | "browser_screenshot" => some (.fields [])
  | "browser_execute_script" =>
    if (get "script").isSome then some (.fields [("script", get "script")]) else none
  | "browser_inspect_element" =>
    if (get "selector").isSome then
      some (.fields [("selector", get "selector"),
        ("includeInherited", get "includeInherited")])
    else none
  | "browser_get_errors" => some (.fields [("limit", get "limit")])
  | "browser_get_console_logs" =>
    some (.fields [("limit", get "limit"), ("type", get "type")])
  | "browser_get_performance" => some (.fields [])
  | "browser_get_state" => some (.fields [])
  | "browser_set_viewport" =>
    some (.fields [("width", get "width"), ("height", get "height"),
      ("deviceScaleFactor", get "deviceScaleFactor"), ("mobile", get "mobile")])
  | "browser_get_network_requests" =>
    some (.fields [("includeStaticAssets", get "includeStaticAssets"),
      ("urlFilter", get "urlFilter"), ("method", get "method"),
      ("statusFilter", get "statusFilter"), ("limit", get "limit")])
  | "project_get_active" => some (.fields [])
  | "project_start" =>
    if (get "projectPath").isSome then
      some (.fields [("projectPath", get "projectPath"), ("port", get "port")])
    else none
  | "project_stop" => some (.fields [])
  | "canvas_list" =>
    some (.fields [("nameFilter", get "nameFilter"), ("sortBy", get "sortBy"),
      ("sortDirection", get "sortDirection")])
  | "canvas_get_active" => some (.fields [])
  | "canvas_create" =>
    if (get "name").isSome then some (.fields [("name", get "name")]) else none
  | "canvas_open" =>
    some (.fields [("canvasId", get "canvasId"), ("name", get "name")])
  | "canvas_validate_components" => some (.fields [("canvasId", get "canvasId")])
  | "component_add" =>
    if (get "folderPath").isSome then
      some (.fields [("folderPath", get "folderPath"), ("canvasId", get "canvasId"),
        ("name", get "name"), ("entryFile", get "entryFile"),
        ("framework", get "framework")])
    else none
  | "component_add_batch" =>
    if (get "components").isSome then
      some (.fields [("components", get "components")])
    else none
  | "component_remove" =>
    if (get "componentId").isSome then
      some (.fields [("componentId", get "componentId"),
        ("deleteSourceCode", get "deleteSourceCode")])
    else none
  | "component_get_info" =>
    if (get "componentId").isSome then
      some (.fields [("componentId", get "componentId")])
    else none
  | "component_list" =>
    if (get "canvasId").isSome then
      some (.fields [("canvasId", get "canvasId")])
    else none
  | "component_rebuild" =>
    if (get "componentId").isSome then
      some (.fields [("componentId", get "componentId")])
    else none
  | _ => if name ∈ custom then some (.raw rawArgs) else none

/-- The per-tool required-field contract of the strict projection: the
guard of each case of the strict switch, written as a standalone
predicate on property lookup (false for names with no case). -/
def requiredOkG (name : String) (get : String → Option Json) : Bool :=
  match name with
  | "read_file" => isArrO (get "files")
  | "attempt_completion" => jsTruthyO (get "result")
  | "execute_command" => jsTruthyO (get "command")
  | "apply_diff" => (get "path").isSome ∧ (get "diff").isSome
  | "search_and_replace" =>
    (get "path").isSome ∧ (get "operations").isSome ∧ isArrO (get "operations")
  | "ask_followup_question" => (get "question").isSome ∧ (get "follow_up").isSome
  | "browser_action" => (get "action").isSome
  | "codebase_search" => (get "query").isSome
  | "fetch_instructions" => (get "task").isSome
  | "generate_image" => (get "prompt").isSome ∧ (get "path").isSome
  | "run_slash_command" => (get "command").isSome
  | "search_files" => (get "path").isSome ∧ (get "regex").isSome
  | "switch_mode" => (get "mode_slug").isSome ∧ (get "reason").isSome
  | "update_todo_list" => (get "todos").isSome
  | "read_command_output" => (get "artifact_id").isSome
  | "write_to_file" => (get "path").isSome ∧ (get "content").isSome
  | "use_mcp_tool" => (get "server_name").isSome ∧ (get "tool_name").isSome
  | "access_mcp_resource" => (get "server_name").isSome ∧ (get "uri").isSome
  | "apply_patch" => (get "patch").isSome
  | "search_replace" =>
    (get "file_path").isSome ∧ (get "old_string").isSome ∧ (get "new_string").isSome
  | "edit_file" =>
    (get "file_path").isSome ∧ (get "old_string").isSome ∧ (get "new_string").isSome
  | "list_files" => (get "path").isSome
  | "new_task" => (get "mode").isSome ∧ (get "message").isSome
  | "browser_open" => true
  | "browser_close" => true
  | "browser_action_input" => (get "action").isSome
  | "browser_navigate" => (get "url").isSome
  | "browser_reload" => true
  | "browser_screenshot" => true
  | "browser_execute_script" => (get "script").isSome
  | "browser_inspect_element" => (get "selector").isSome
  | "browser_get_errors" => true
  | "browser_get_console_logs" => true
  | "browser_get_performance" => true
  | "browser_get_state" => true
  | "browser_set_viewport" => true
  | "browser_get_network_requests" => true
  | "project_get_active" => true
  | "project_start" => (get "projectPath").isSome
  | "project_stop" => true
  | "canvas_list" => true
  | "canvas_get_active" => true
  | "canvas_create" => (get "name").isSome
  | "canvas_open" => true
  | "canvas_validate_components" => true
  | "component_add" => (get "folderPath").isSome
  | "component_add_batch" => (get "components").isSome
  | "component_remove" => (get "componentId").isSome
  | "component_get_info" => (get "componentId").isSome
  | "component_list" => (get "canvasId").isSome
  | "component_rebuild" => (get "componentId").isSome
  | _ => false

/-- Canonical output record for a tool call (interface ToolUse of
shared/tools).  The partial field of the source is partialFlag here. -/
structure ToolUse where
  name : String
  originalName : Option String
  params : List (String × String)
  partialFlag : Bool
  nativeArgs : Option NativeArgsVal

/-- Sibling output record for a dynamically named external tool
(interface McpToolUse of shared/tools). -/
structure McpToolUse where
  id : String
  name : String
  serverName : String
  toolName : String
  arguments : Json
  partialFlag : Bool

/-- Result of the strict finalize pass: ToolUse or McpToolUse (null is
Option.none around this type). -/
inductive ParsedToolCall where
  | toolUse (t : ToolUse) : ParsedToolCall
  | mcpToolUse (m : McpToolUse) : ParsedToolCall

/-- Legacy params record of the partial path: every entry of the parsed
args whose key is in the fixed parameter vocabulary, stringified. -/
def partialParamsOf (partialArgs : Json) : List (String × String) :=
  (jsEntries partialArgs).foldl
    (fun ps kv =>
      if kv.1 ∈ toolParamNames then mapSet ps kv.1 (stringifyVal kv.2) else ps)
    []

/-- Static method createPartialToolUse of NativeToolCallParser:
stringified params for display, partial nativeArgs from the partial
projection table, and originalName kept only when truthy. -/
def createPartialToolUse (_id : String) (name : String) (partialArgs : Json)
    (partialFlag : Bool) (originalName : Option String) : ToolUse :=
  { name := name
    originalName :=
      match originalName with
      | some s => if s ≠ "" then some s else none
      | none => none
    params := partialParamsOf partialArgs
    partialFlag := partialFlag
    nativeArgs := buildPartialNativeArgsG name (jgetF partialArgs) }

/-- Legacy params record of the strict path: entries of the parsed
args, skipping the files parameter of read_file, and skipping unknown
parameter names unless the resolved name is a registered custom tool. -/
def strictParamsOf (custom : List String) (resolvedName : String)
    (entries : List (String × Json)) : List (String × String) :=
  entries.foldl
    (fun ps kv =>
      if resolvedName = "read_file" ∧ kv.1 = "files" then ps
      else if kv.1 ∉ toolParamNames ∧ resolvedName ∉ custom then ps
      else mapSet ps kv.1 (stringifyVal kv.2))
    []

/-- Input shape of the strict parse entry point: the native tool call
with id, name and accumulated arguments text. -/
structure RawToolCall where
  id : String
  name : String
  arguments : String

/-- Static method parseDynamicMcpTool of NativeToolCallParser: strict
parse of the arguments (empty text replaced by an empty object text),
renormalization of the name, extraction of the namespace and tool
components, and an McpToolUse preserving the given name; none models
the null returned on parse failure or malformed name. -/
def parseDynamicMcpTool (toolCall : RawToolCall) : Option McpToolUse :=
  match jsonParse (if toolCall.arguments = "" then "\x7b\x7d" else toolCall.arguments) with
  | none => none
  | some args =>
    let normalizedName := normalizeMcpToolName toolCall.name
    match parseMcpToolName normalizedName with
    | none => none
    | some (serverName, toolName) =>
      some { id := toolCall.id, name := toolCall.name, serverName := serverName,
             toolName := toolName, arguments := args, partialFlag := false }

/-- Static method parseToolCall of NativeToolCallParser: dynamic-name
routing after normalization, alias resolution, tool-name validation
against the static set and the custom registry, strict JSON parse
(empty text as an empty object), legacy params, the strict projection
switch, the fail-fast guard on undefined nativeArgs for non-custom
names, and the final record with originalName kept when an alias was
used.  none models every null return and every caught exception. -/
def parseToolCall (custom : List String) (toolCall : RawToolCall) : Option ParsedToolCall :=
  let normalizedName := normalizeMcpToolName toolCall.name
  if strStartsWith normalizedName mcpNamePre then
    (parseDynamicMcpTool { toolCall with name := normalizedName }).map .mcpToolUse
  else
    let resolvedName := resolveToolAlias toolCall.name
    if resolvedName ∉ toolNames ∧ resolvedName ∉ custom then none
    else
      match (if toolCall.arguments = "" then some (Json.obj []) else jsonParse toolCall.arguments) with
      | none => none
      | some args =>
        match jsEntriesE args with
        | none => none
        | some entries =>
          let params := strictParamsOf custom resolvedName entries
          let nativeArgs := buildNativeArgsG custom resolvedName (jgetF args) args
          if nativeArgs.isNone ∧ resolvedName ∉ custom then none
          else
            some (.toolUse
              { name := resolvedName
                originalName :=
                  if toolCall.name ≠ resolvedName then some toolCall.name else none
                params := params
                partialFlag := false
                nativeArgs := nativeArgs })

/-- Lifecycle events emitted by raw chunk processing (type
ToolCallStreamEvent of the source; end is endEv here). -/
inductive ToolCallStreamEvent where
  | start (id name : String) : ToolCallStreamEvent
  | delta (id text : String) : ToolCallStreamEvent
  | endEv (id : String) : ToolCallStreamEvent

/-- One entry of the streaming registry (the per-id value of the static
map streamingToolCalls). -/
structure StreamEntry where
  id : String
  name : String
  argumentsAccumulator : String

/-- One entry of the raw chunk tracker (the per-index value of the
static map rawChunkTracker). -/
structure RawTracked where
  id : String
  name : String
  hasStarted : Bool
  deltaBuffer : List String

/-- The two static maps of NativeToolCallParser, as explicit state.
Insertion order of the association lists mirrors JavaScript Map
iteration order. -/
structure ParserState where
  streamingToolCalls : List (String × StreamEntry)
  rawChunkTracker : List (Nat × RawTracked)

/-- The state at class load / after a full reset: both maps empty. -/
def initialParserState : ParserState :=
  { streamingToolCalls := [], rawChunkTracker := [] }

/-- Input shape of processRawChunk: an index-addressed provider chunk
whose id, name and arguments fragment may each be absent. -/
structure RawChunk where
  index : Nat
  id : Option String
  name : Option String
  args : Option String

/-- Name-update block of processRawChunk: a truthy name on any later
chunk overwrites the tracked name. -/
def rawNameUpdate (chunk : RawChunk) (e0 : RawTracked) : RawTracked :=
  match chunk.name with
  | some n => if n ≠ "" then { e0 with name := n } else e0
  | none => e0

/-- Start block of processRawChunk: the instant the entry is not yet
started and has a non-empty name, emit the start event, mark started,
and flush the buffered deltas in arrival order. -/
def rawStartPhase (e1 : RawTracked) : List ToolCallStreamEvent × RawTracked :=
  if ¬ e1.hasStarted ∧ e1.name ≠ "" then
    (ToolCallStreamEvent.start e1.id e1.name ::
       e1.deltaBuffer.map (ToolCallStreamEvent.delta e1.id),
     { e1 with hasStarted := true, deltaBuffer := [] })
  else ([], e1)

/-- Arguments block of processRawChunk: a truthy arguments fragment is
emitted as a delta when started, and buffered otherwise. -/
def rawArgsPhase (chunk : RawChunk) (p1 : List ToolCallStreamEvent × RawTracked) :
    List ToolCallStreamEvent × RawTracked :=
  match chunk.args with
  | some a =>
    if a ≠ "" then
      if p1.2.hasStarted then (p1.1 ++ [ToolCallStreamEvent.delta p1.2.id a], p1.2)
      else (p1.1, { p1.2 with deltaBuffer := p1.2.deltaBuffer ++ [a] })
    else p1
  | none => p1

/-- Continuation of processRawChunk once a tracked entry exists (the
body of the source after the early return): the three blocks in source
order, then the entry is written back at its index. -/
def processRawChunkGo (tracker1 : List (Nat × RawTracked)) (st : ParserState)
    (chunk : RawChunk) (e0 : RawTracked) : List ToolCallStreamEvent × ParserState :=
  let p2 := rawArgsPhase chunk (rawStartPhase (rawNameUpdate chunk e0))
  (p2.1, { st with rawChunkTracker := mapSet tracker1 chunk.index p2.2 })

/-- Static method processRawChunk of NativeToolCallParser: creates
tracking on a first chunk bearing a truthy id, then hands the tracked
entry to the continuation; a chunk for an untracked index with no
usable id is dropped. -/
def processRawChunk (st : ParserState) (chunk : RawChunk) : List ToolCallStreamEvent × ParserState :=
  let tracked0 := mapGet st.rawChunkTracker chunk.index
  let created : Option RawTracked :=
    match tracked0, chunk.id with
    | none, some i =>
      if i ≠ "" then
        some { id := i, name := chunk.name.getD "", hasStarted := false, deltaBuffer := [] }
      else none
    | _, _ => none
  let tracker1 :=
    match created with
    | some e => mapSet st.rawChunkTracker chunk.index e
    | none => st.rawChunkTracker
  match tracked0, created with
  | some e0, _ => processRawChunkGo tracker1 st chunk e0
  | none, some e0 => processRawChunkGo tracker1 st chunk e0
  | none, none => ([], st)

/-- Static method processFinishReason of NativeToolCallParser: on the
finish reason tool_calls, one end event per tracked index, in tracking
order, regardless of started state; the maps are not touched. -/
def processFinishReason (st : ParserState) (finishReason : Option String) :
    List ToolCallStreamEvent × ParserState :=
  (if finishReason = some "tool_calls" ∧ ¬ st.rawChunkTracker.isEmpty then
     st.rawChunkTracker.map fun p => ToolCallStreamEvent.endEv p.2.id
   else [], st)

/-- Static method finalizeRawChunks of NativeToolCallParser: end events
only for indices that reached hasStarted, then the whole tracker is
cleared. -/
def finalizeRawChunks (st : ParserState) : List ToolCallStreamEvent × ParserState :=
  if ¬ st.rawChunkTracker.isEmpty then
    (st.rawChunkTracker.filterMap
       (fun p => if p.2.hasStarted then some (ToolCallStreamEvent.endEv p.2.id) else none),
     { st with rawChunkTracker := [] })
  else ([], st)

/-- Static method clearRawChunkState of NativeToolCallParser. -/
def clearRawChunkState (st : ParserState) : ParserState :=
  { st with rawChunkTracker := [] }

/-- Static method startStreamingToolCall of NativeToolCallParser:
registers (or overwrites) the call with empty accumulated text. -/
def startStreamingToolCall (st : ParserState) (id name : String) : ParserState :=
  { st with streamingToolCalls :=
      mapSet st.streamingToolCalls id { id := id, name := name, argumentsAccumulator := "" } }

/-- Static method clearAllStreamingToolCalls of NativeToolCallParser. -/
def clearAllStreamingToolCalls (st : ParserState) : ParserState :=
  { st with streamingToolCalls := [] }

/-- Static method processStreamingChunk of NativeToolCallParser: append
the fragment to the accumulated text, suppress partial updates for
names bearing the canonical dynamic-tool marker, then attempt the
lenient parse and produce a partial record; none models every null
return (unknown id, suppressed preview, lenient parse failure). -/
def processStreamingChunk (st : ParserState) (id chunk : String) :
    Option ToolUse × ParserState :=
  match mapGet st.streamingToolCalls id with
  | none => (none, st)
  | some toolCall0 =>
    let toolCall := { toolCall0 with
      argumentsAccumulator := toolCall0.argumentsAccumulator ++ chunk }
    let st' : ParserState := { st with
      streamingToolCalls := mapSet st.streamingToolCalls id toolCall }
    if strStartsWith toolCall.name mcpNamePre then (none, st')
    else
      match parsePartialJSON toolCall.argumentsAccumulator with
      | none => (none, st')
      | some partialArgs =>
        let resolvedName := resolveToolAlias toolCall.name
        let originalName :=
          if toolCall.name ≠ resolvedName then some toolCall.name else none
        (some (createPartialToolUse toolCall.id resolvedName (jsOr partialArgs)
                 true originalName),
         st')

/-- Static method finalizeStreamingToolCall of NativeToolCallParser:
strict parse of the accumulated text through parseToolCall, and
deletion of the streaming state regardless of the outcome; none models
the null returns (unknown id, failed strict parse). -/
def finalizeStreamingToolCall (custom : List String) (st : ParserState) (id : String) :
    Option ParsedToolCall × ParserState :=
  match mapGet st.streamingToolCalls id with
  | none => (none, st)
  | some toolCall =>
    let finalToolUse := parseToolCall custom
      { id := toolCall.id, name := toolCall.name, arguments := toolCall.argumentsAccumulator }
    (finalToolUse,
     { st with streamingToolCalls := mapDelete st.streamingToolCalls id })

/-- The typed fields present in a possibly-undefined native-args value
(empty when undefined). -/
def presentFieldsO : Option NativeArgsVal → List (String × Json)
  | none => []
  | some na => presentFields na

/-- The typed fields present in a record: the defined members of its
native args (empty when nativeArgs is undefined). -/
def typedFields (t : ToolUse) : List (String × Json) :=
  presentFieldsO t.nativeArgs

/-- Concatenation of a list of strings, for accumulation statements. -/
def concatStr (l : List String) : String :=
  l.foldr (fun a b => a ++ b) ""

/-- The delta payloads of an event list, in order. -/
def deltaTexts (evs : List ToolCallStreamEvent) : List String :=
  evs.filterMap fun ev =>
    match ev with
    | .delta _ t => some t
    | _ => none

/-- The arguments fragment carried by a raw chunk (empty when absent;
an empty fragment is also dropped by the tracker, and is neutral for
concatenation). -/
def argsText (c : RawChunk) : String :=
  match c.args with
  | some a => a
  | none => ""

/-- Feed a list of demultiplexed deltas (id, fragment) through
processStreamingChunk in order, keeping only the final state. -/
def applyDeltas (st : ParserState) (ds : List (String × String)) : ParserState :=
  ds.foldl (fun s d => (processStreamingChunk s d.1 d.2).2) st

/-- Feed a list of raw chunks through processRawChunk in order,
collecting the emitted events in order. -/
def applyRawChunks (st : ParserState) : List RawChunk → List ToolCallStreamEvent × ParserState
  | [] => ([], st)
  | c :: rest =>
    let r := processRawChunk st c
    let r' := applyRawChunks r.2 rest
    (r.1 ++ r'.1, r'.2)

/-- Membership in the present fields of an object-literal native-args
value is membership of the defined binding in the field list. -/
theorem mem_presentFields (l : List (String × Option Json)) (kv : String × Json) :
    kv ∈ presentFields (.fields l) ↔ (kv.1, some kv.2) ∈ l := by
  simp only [presentFields, List.mem_filterMap]
  constructor
  · rintro ⟨⟨k, ov⟩, ha, hm⟩
    cases ov with
    | none => simp at hm
    | some v =>
      simp only [Option.map_some'] at hm
      cases hm
      simpa using ha
  · intro hmem
    exact ⟨(kv.1, some kv.2), hmem, by rfl⟩
/-- Unfolding equation of the strict projection at tool name read_file. -/
theorem bNAeq_read_file (custom : List String) (get : String → Option Json) (rawArgs : Json) :
    buildNativeArgsG custom "read_file" get rawArgs =
      ((match get "files" with
     | some (.arr xs) => some (.fields [("files", some (convertFileEntries xs))])
     | _ => none)) := rfl

/-- Unfolding equation of the strict projection at tool name attempt_completion. -/
theorem bNAeq_attempt_completion (custom : List String) (get : String → Option Json) (rawArgs : Json) :
    buildNativeArgsG custom "attempt_completion" get rawArgs =
      (if jsTruthyO (get "result") then some (.fields [("result", get "result")]) else none) := rfl

/-- Unfolding equation of the strict projection at tool name execute_command. -/
theorem bNAeq_execute_command (custom : List String) (get : String → Option Json) (rawArgs : Json) :
    buildNativeArgsG custom "execute_command" get rawArgs =
      (if jsTruthyO (get "command") then
      some (.fields [("command", get "command"), ("cwd", get "cwd")])
    else none) := rfl

/-- Unfolding equation of the strict projection at tool name apply_diff. -/
theorem bNAeq_apply_diff (custom : List String) (get : String → Option Json) (rawArgs : Json) :
    buildNativeArgsG custom "apply_diff" get rawArgs =
      (if (get "path").isSome ∧ (get "diff").isSome then
      some (.fields [("path", get "path"), ("diff", get "diff")])
    else none) := rfl

/-- Unfolding equation of the strict projection at tool name search_and_replace. -/
theorem bNAeq_search_and_replace (custom : List String) (get : String → Option Json) (rawArgs : Json) :
    buildNativeArgsG custom "search_and_replace" get rawArgs =
      (if (get "path").isSome ∧ (get "operations").isSome ∧ isArrO (get "operations") then
      some (.fields [("path", get "path"), ("operations", get "operations")])
    else none) := rfl

/-- Unfolding equation of the strict projection at tool name ask_followup_question. -/
theorem bNAeq_ask_followup_question (custom : List String) (get : String → Option Json) (rawArgs : Json) :
    buildNativeArgsG custom "ask_followup_question" get rawArgs =
      (if (get "question").isSome ∧ (get "follow_up").isSome then
      some (.fields [("question", get "question"), ("follow_up", get "follow_up")])
    else none) := rfl

/-- Unfolding equation of the strict projection at tool name browser_action. -/
theorem bNAeq_browser_action (custom : List String) (get : String → Option Json) (rawArgs : Json) :
    buildNativeArgsG custom "browser_action" get rawArgs =
      (if (get "action").isSome then
      some (.fields [("action", get "action"), ("url", get "url"),
        ("coordinate", get "coordinate"), ("size", get "size"),
        ("text", get "text"), ("path", get "path")])
    else none) := rfl

/-- Unfolding equation of the strict projection at tool name codebase_search. -/
theorem bNAeq_codebase_search (custom : List String) (get : String → Option Json) (rawArgs : Json) :
    buildNativeArgsG custom "codebase_search" get rawArgs =
      (if (get "query").isSome then
      some (.fields [("query", get "query"), ("path", get "path")])
    else none) := rfl

/-- Unfolding equation of the strict projection at tool name fetch_instructions. -/
theorem bNAeq_fetch_instructions (custom : List String) (get : String → Option Json) (rawArgs : Json) :
    buildNativeArgsG custom "fetch_instructions" get rawArgs =
      (if (get "task").isSome then some (.fields [("task", get "task")]) else none) := rfl

/-- Unfolding equation of the strict projection at tool name generate_image. -/
theorem bNAeq_generate_image (custom : List String) (get : String → Option Json) (rawArgs : Json) :
    buildNativeArgsG custom "generate_image" get rawArgs =
      (if (get "prompt").isSome ∧ (get "path").isSome then
      some (.fields [("prompt", get "prompt"), ("path", get "path"),
        ("image", get "image")])
    else none) := rfl

/-- Unfolding equation of the strict projection at tool name run_slash_command. -/
theorem bNAeq_run_slash_command (custom : List String) (get : String → Option Json) (rawArgs : Json) :
    buildNativeArgsG custom "run_slash_command" get rawArgs =
      (if (get "command").isSome then
      some (.fields [("command", get "command"), ("args", get "args")])
    else none) := rfl

/-- Unfolding equation of the strict projection at tool name search_files. -/
theorem bNAeq_search_files (custom : List String) (get : String → Option Json) (rawArgs : Json) :
    buildNativeArgsG custom "search_files" get rawArgs =
      (if (get "path").isSome ∧ (get "regex").isSome then
      some (.fields [("path", get "path"), ("regex", get "regex"),
        ("file_pattern", get "file_pattern")])
    else none) := rfl

/-- Unfolding equation of the strict projection at tool name switch_mode. -/
theorem bNAeq_switch_mode (custom : List String) (get : String → Option Json) (rawArgs : Json) :
    buildNativeArgsG custom "switch_mode" get rawArgs =
      (if (get "mode_slug").isSome ∧ (get "reason").isSome then
      some (.fields [("mode_slug", get "mode_slug"), ("reason", get "reason")])
    else none) := rfl

/-- Unfolding equation of the strict projection at tool name update_todo_list. -/
theorem bNAeq_update_todo_list (custom : List String) (get : String → Option Json) (rawArgs : Json) :
    buildNativeArgsG custom "update_todo_list" get rawArgs =
      (if (get "todos").isSome then some (.fields [("todos", get "todos")]) else none) := rfl

/-- Unfolding equation of the strict projection at tool name read_command_output. -/
theorem bNAeq_read_command_output (custom : List String) (get : String → Option Json) (rawArgs : Json) :
    buildNativeArgsG custom "read_command_output" get rawArgs =
      (if (get "artifact_id").isSome then
      some (.fields [("artifact_id", get "artifact_id"), ("search", get "search"),
        ("offset", get "offset"), ("limit", get "limit")])
    else none) := rfl

/-- Unfolding equation of the strict projection at tool name write_to_file. -/
theorem bNAeq_write_to_file (custom : List String) (get : String → Option Json) (rawArgs : Json) :
    buildNativeArgsG custom "write_to_file" get rawArgs =
      (if (get "path").isSome ∧ (get "content").isSome then
      some (.fields [("path", get "path"), ("content", get "content")])
    else none) := rfl

/-- Unfolding equation of the strict projection at tool name use_mcp_tool. -/
theorem bNAeq_use_mcp_tool (custom : List String) (get : String → Option Json) (rawArgs : Json) :
    buildNativeArgsG custom "use_mcp_tool" get rawArgs =
      (if (get "server_name").isSome ∧ (get "tool_name").isSome then
      some (.fields [("server_name", get "server_name"),
        ("tool_name", get "tool_name"), ("arguments", get "arguments")])
    else none) := rfl

/-- Unfolding equation of the strict projection at tool name access_mcp_resource. -/
theorem bNAeq_access_mcp_resource (custom : List String) (get : String → Option Json) (rawArgs : Json) :
    buildNativeArgsG custom "access_mcp_resource" get rawArgs =
      (if (get "server_name").isSome ∧ (get "uri").isSome then
      some (.fields [("server_name", get "server_name"), ("uri", get "uri")])
    else none) := rfl

/-- Unfolding equation of the strict projection at tool name apply_patch. -/
theorem bNAeq_apply_patch (custom : List String) (get : String → Option Json) (rawArgs : Json) :
    buildNativeArgsG custom "apply_patch" get rawArgs =
      (if (get "patch").isSome then some (.fields [("patch", get "patch")]) else none) := rfl

/-- Unfolding equation of the strict projection at tool name search_replace. -/
theorem bNAeq_search_replace (custom : List String) (get : String → Option Json) (rawArgs : Json) :
    buildNativeArgsG custom "search_replace" get rawArgs =
      (if (get "file_path").isSome ∧ (get "old_string").isSome ∧ (get "new_string").isSome then
      some (.fields [("file_path", get "file_path"),
        ("old_string", get "old_string"), ("new_string", get "new_string")])
    else none) := rfl

/-- Unfolding equation of the strict projection at tool name edit_file. -/
theorem bNAeq_edit_file (custom : List String) (get : String → Option Json) (rawArgs : Json) :
    buildNativeArgsG custom "edit_file" get rawArgs =
      (if (get "file_path").isSome ∧ (get "old_string").isSome ∧ (get "new_string").isSome then
      some (.fields [("file_path", get "file_path"),
        ("old_string", get "old_string"), ("new_string", get "new_string"),
        ("expected_replacements", get "expected_replacements")])
    else none) := rfl

/-- Unfolding equation of the strict projection at tool name list_files. -/
theorem bNAeq_list_files (custom : List String) (get : String → Option Json) (rawArgs : Json) :
    buildNativeArgsG custom "list_files" get rawArgs =
      (if (get "path").isSome then
      some (.fields [("path", get "path"),
        ("recursive", (coerceOptionalBoolean (get "recursive")).map Json.bool)])
    else none) := rfl

/-- Unfolding equation of the strict projection at tool name new_task. -/
theorem bNAeq_new_task (custom : List String) (get : String → Option Json) (rawArgs : Json) :
    buildNativeArgsG custom "new_task" get rawArgs =
      (if (get "mode").isSome ∧ (get "message").isSome then
      some (.fields [("mode", get "mode"), ("message", get "message"),
        ("todos", get "todos")])
    else none) := rfl

/-- Unfolding equation of the strict projection at tool name browser_open. -/
theorem bNAeq_browser_open (custom : List String) (get : String → Option Json) (rawArgs : Json) :
    buildNativeArgsG custom "browser_open" get rawArgs =
      (some (.fields [("url", get "url")])) := rfl

/-- Unfolding equation of the strict projection at tool name browser_close. -/
theorem bNAeq_browser_close (custom : List String) (get : String → Option Json) (rawArgs : Json) :
    buildNativeArgsG custom "browser_close" get rawArgs =
      (some (.fields [])) := rfl

/-- Unfolding equation of the strict projection at tool name browser_action_input. -/
theorem bNAeq_browser_action_input (custom : List String) (get : String → Option Json) (rawArgs : Json) :
    buildNativeArgsG custom "browser_action_input" get rawArgs =
      (if (get "action").isSome then
      some (.fields [("action", get "action"), ("coordinate", get "coordinate"),
        ("text", get "text"), ("key", get "key"), ("modifiers", get "modifiers"),
        ("deltaX", get "deltaX"), ("deltaY", get "deltaY")])
    else none) := rfl

/-- Unfolding equation of the strict projection at tool name browser_navigate. -/
theorem bNAeq_browser_navigate (custom : List String) (get : String → Option Json) (rawArgs : Json) :
    buildNativeArgsG custom "browser_navigate" get rawArgs =
      (if (get "url").isSome then some (.fields [("url", get "url")]) else none) := rfl

/-- Unfolding equation of the strict projection at tool name browser_reload. -/
theorem bNAeq_browser_reload (custom : List String) (get : String → Option Json) (rawArgs : Json) :
    buildNativeArgsG custom "browser_reload" get rawArgs =
      (some (.fields [("ignoreCache", get "ignoreCache")])) := rfl

/-- Unfolding equation of the strict projection at tool name browser_screenshot. -/
theorem bNAeq_browser_screenshot (custom : List String) (get : String → Option Json) (rawArgs : Json) :
    buildNativeArgsG custom "browser_screenshot" get rawArgs =
      (some (.fields [])) := rfl

/-- Unfolding equation of the strict projection at tool name browser_execute_script. -/
theorem bNAeq_browser_execute_script (custom : List String) (get : String → Option Json) (rawArgs : Json) :
    buildNativeArgsG custom "browser_execute_script" get rawArgs =
      (if (get "script").isSome then some (.fields [("script", get "script")]) else none) := rfl

/-- Unfolding equation of the strict projection at tool name browser_inspect_element. -/
theorem bNAeq_browser_inspect_element (custom : List String) (get : String → Option Json) (rawArgs : Json) :
    buildNativeArgsG custom "browser_inspect_element" get rawArgs =
      (if (get "selector").isSome then
      some (.fields [("selector", get "selector"),
        ("includeInherited", get "includeInherited")])
    else none) := rfl

/-- Unfolding equation of the strict projection at tool name browser_get_errors. -/
theorem bNAeq_browser_get_errors (custom : List String) (get : String → Option Json) (rawArgs : Json) :
    buildNativeArgsG custom "browser_get_errors" get rawArgs =
      (some (.fields [("limit", get "limit")])) := rfl

/-- Unfolding equation of the strict projection at tool name browser_get_console_logs. -/
theorem bNAeq_browser_get_console_logs (custom : List String) (get : String → Option Json) (rawArgs : Json) :
    buildNativeArgsG custom "browser_get_console_logs" get rawArgs =
      (some (.fields [("limit", get "limit"), ("type", get "type")])) := rfl

/-- Unfolding equation of the strict projection at tool name browser_get_performance. -/
theorem bNAeq_browser_get_performance (custom : List String) (get : String → Option Json) (rawArgs : Json) :
    buildNativeArgsG custom "browser_get_performance" get rawArgs =
      (some (.fields [])) := rfl

/-- Unfolding equation of the strict projection at tool name browser_get_state. -/
theorem bNAeq_browser_get_state (custom : List String) (get : String → Option Json) (rawArgs : Json) :
    buildNativeArgsG custom "browser_get_state" get rawArgs =
      (some (.fields [])) := rfl

/-- Unfolding equation of the strict projection at tool name browser_set_viewport. -/
theorem bNAeq_browser_set_viewport (custom : List String) (get : String → Option Json) (rawArgs : Json) :
    buildNativeArgsG custom "browser_set_viewport" get rawArgs =
      (some (.fields [("width", get "width"), ("height", get "height"),
      ("deviceScaleFactor", get "deviceScaleFactor"), ("mobile", get "mobile")])) := rfl

/-- Unfolding equation of the strict projection at tool name browser_get_network_requests. -/
theorem bNAeq_browser_get_network_requests (custom : List String) (get : String → Option Json) (rawArgs : Json) :
    buildNativeArgsG custom "browser_get_network_requests" get rawArgs =
      (some (.fields [("includeStaticAssets", get "includeStaticAssets"),
      ("urlFilter", get "urlFilter"), ("method", get "method"),
      ("statusFilter", get "statusFilter"), ("limit", get "limit")])) := rfl

/-- Unfolding equation of the strict projection at tool name project_get_active. -/
theorem bNAeq_project_get_active (custom : List String) (get : String → Option Json) (rawArgs : Json) :
    buildNativeArgsG custom "project_get_active" get rawArgs =
      (some (.fields [])) := rfl

/-- Unfolding equation of the strict projection at tool name project_start. -/
theorem bNAeq_project_start (custom : List String) (get : String → Option Json) (rawArgs : Json) :
    buildNativeArgsG custom "project_start" get rawArgs =
      (if (get "projectPath").isSome then
      some (.fields [("projectPath", get "projectPath"), ("port", get "port")])
    else none) := rfl

/-- Unfolding equation of the strict projection at tool name project_stop. -/
theorem bNAeq_project_stop (custom : List String) (get : String → Option Json) (rawArgs : Json) :
    buildNativeArgsG custom "project_stop" get rawArgs =
      (some (.fields [])) := rfl

/-- Unfolding equation of the strict projection at tool name canvas_list. -/
theorem bNAeq_canvas_list (custom : List String) (get : String → Option Json) (rawArgs : Json) :
    buildNativeArgsG custom "canvas_list" get rawArgs =
      (some (.fields [("nameFilter", get "nameFilter"), ("sortBy", get "sortBy"),
      ("sortDirection", get "sortDirection")])) := rfl

/-- Unfolding equation of the strict projection at tool name canvas_get_active. -/
theorem bNAeq_canvas_get_active (custom : List String) (get : String → Option Json) (rawArgs : Json) :
    buildNativeArgsG custom "canvas_get_active" get rawArgs =
      (some (.fields [])) := rfl

/-- Unfolding equation of the strict projection at tool name canvas_create. -/
theorem bNAeq_canvas_create (custom : List String) (get : String → Option Json) (rawArgs : Json) :
    buildNativeArgsG custom "canvas_create" get rawArgs =
      (if (get "name").isSome then some (.fields [("name", get "name")]) else none) := rfl

/-- Unfolding equation of the strict projection at tool name canvas_open. -/
theorem bNAeq_canvas_open (custom : List String) (get : String → Option Json) (rawArgs : Json) :
    buildNativeArgsG custom "canvas_open" get rawArgs =
      (some (.fields [("canvasId", get "canvasId"), ("name", get "name")])) := rfl

/-- Unfolding equation of the strict projection at tool name canvas_validate_components. -/
theorem bNAeq_canvas_validate_components (custom : List String) (get : String → Option Json) (rawArgs : Json) :
    buildNativeArgsG custom "canvas_validate_components" get rawArgs =
      (some (.fields [("canvasId", get "canvasId")])) := rfl

/-- Unfolding equation of the strict projection at tool name component_add. -/
theorem bNAeq_component_add (custom : List String) (get : String → Option Json) (rawArgs : Json) :
    buildNativeArgsG custom "component_add" get rawArgs =
      (if (get "folderPath").isSome then
      some (.fields [("folderPath", get "folderPath"), ("canvasId", get "canvasId"),
        ("name", get "name"), ("entryFile", get "entryFile"),
        ("framework", get "framework")])
    else none) := rfl

/-- Unfolding equation of the strict projection at tool name component_add_batch. -/
theorem bNAeq_component_add_batch (custom : List String) (get : String → Option Json) (rawArgs : Json) :
    buildNativeArgsG custom "component_add_batch" get rawArgs =
      (if (get "components").isSome then
      some (.fields [("components", get "components")])
    else none) := rfl

/-- Unfolding equation of the strict projection at tool name component_remove. -/
theorem bNAeq_component_remove (custom : List String) (get : String → Option Json) (rawArgs : Json) :
    buildNativeArgsG custom "component_remove" get rawArgs =
      (if (get "componentId").isSome then
      some (.fields [("componentId", get "componentId"),
        ("deleteSourceCode", get "deleteSourceCode")])
    else none) := rfl

/-- Unfolding equation of the strict projection at tool name component_get_info. -/
theorem bNAeq_component_get_info (custom : List String) (get : String → Option Json) (rawArgs : Json) :
    buildNativeArgsG custom "component_get_info" get rawArgs =
      (if (get "componentId").isSome then
      some (.fields [("componentId", get "componentId")])
    else none) := rfl

/-- Unfolding equation of the strict projection at tool name component_list. -/
theorem bNAeq_component_list (custom : List String) (get : String → Option Json) (rawArgs : Json) :
    buildNativeArgsG custom "component_list" get rawArgs =
      (if (get "canvasId").isSome then
      some (.fields [("canvasId", get "canvasId")])
    else none) := rfl

/-- Unfolding equation of the strict projection at tool name component_rebuild. -/
theorem bNAeq_component_rebuild (custom : List String) (get : String → Option Json) (rawArgs : Json) :
    buildNativeArgsG custom "component_rebuild" get rawArgs =
      (if (get "componentId").isSome then
      some (.fields [("componentId", get "componentId")])
    else none) := rfl

/-- The strict projection yields a defined value exactly when the
required-field contract of the resolved name holds, for names outside
the custom registry. -/
theorem bna_isSome_eq (custom : List String) (name : String) (get : String → Option Json)
    (rawArgs : Json) (h : name ∉ custom) :
    (buildNativeArgsG custom name get rawArgs).isSome = requiredOkG name get := by
  unfold buildNativeArgsG requiredOkG
  split <;> first
    | rfl
    | (split <;> simp_all [isArrO])

/-- For names outside the custom registry the strict projection never
produces the raw pass-through value. -/
theorem bna_no_raw (custom : List String) (name : String) (get : String → Option Json)
    (rawArgs : Json) (j : Json) (hc : name ∉ custom) :
    buildNativeArgsG custom name get rawArgs ≠ some (.raw j) := by
  intro h
  unfold buildNativeArgsG at h
  split at h <;> first
    | (split at h <;> simp_all)
    | simp_all

theorem partial_subset_final (custom : List String) (name : String) (get : String → Option Json)
    (rawArgs : Json) (vp vf : NativeArgsVal) (kv : String × Json)
    (hp : buildPartialNativeArgsG name get = some vp)
    (hf : buildNativeArgsG custom name get rawArgs = some vf)
    (hin : kv ∈ presentFields vp) : kv ∈ presentFields vf := by
  unfold buildPartialNativeArgsG at hp
  split at hp <;> first
    | exact Option.noConfusion hp
    | (injection hp with hp
       subst hp
       first
         | rw [bNAeq_read_file] at hf
         | rw [bNAeq_attempt_completion] at hf
         | rw [bNAeq_execute_command] at hf
         | rw [bNAeq_apply_diff] at hf
         | rw [bNAeq_search_and_replace] at hf
         | rw [bNAeq_ask_followup_question] at hf
         | rw [bNAeq_browser_action] at hf
         | rw [bNAeq_codebase_search] at hf
         | rw [bNAeq_fetch_instructions] at hf
         | rw [bNAeq_generate_image] at hf
         | rw [bNAeq_run_slash_command] at hf
         | rw [bNAeq_search_files] at hf
         | rw [bNAeq_switch_mode] at hf
         | rw [bNAeq_update_todo_list] at hf
         | rw [bNAeq_read_command_output] at hf
         | rw [bNAeq_write_to_file] at hf
         | rw [bNAeq_use_mcp_tool] at hf
         | rw [bNAeq_access_mcp_resource] at hf
         | rw [bNAeq_apply_patch] at hf
         | rw [bNAeq_search_replace] at hf
         | rw [bNAeq_edit_file] at hf
         | rw [bNAeq_list_files] at hf
         | rw [bNAeq_new_task] at hf
         | rw [bNAeq_browser_open] at hf
         | rw [bNAeq_browser_close] at hf
         | rw [bNAeq_browser_action_input] at hf
         | rw [bNAeq_browser_navigate] at hf
         | rw [bNAeq_browser_reload] at hf
         | rw [bNAeq_browser_screenshot] at hf
         | rw [bNAeq_browser_execute_script] at hf
         | rw [bNAeq_browser_inspect_element] at hf
         | rw [bNAeq_browser_get_errors] at hf
         | rw [bNAeq_browser_get_console_logs] at hf
         | rw [bNAeq_browser_get_performance] at hf
         | rw [bNAeq_browser_get_state] at hf
         | rw [bNAeq_browser_set_viewport] at hf
         | rw [bNAeq_browser_get_network_requests] at hf
         | rw [bNAeq_project_get_active] at hf
         | rw [bNAeq_project_start] at hf
         | rw [bNAeq_project_stop] at hf
         | rw [bNAeq_canvas_list] at hf
         | rw [bNAeq_canvas_get_active] at hf
         | rw [bNAeq_canvas_create] at hf
         | rw [bNAeq_canvas_open] at hf
         | rw [bNAeq_canvas_validate_components] at hf
         | rw [bNAeq_component_add] at hf
         | rw [bNAeq_component_add_batch] at hf
         | rw [bNAeq_component_remove] at hf
         | rw [bNAeq_component_get_info] at hf
         | rw [bNAeq_component_list] at hf
         | rw [bNAeq_component_rebuild] at hf
       try split at hf
       all_goals first
         | exact Option.noConfusion hf
         | (subst hf
            try split at hin
            all_goals (simp_all [mem_presentFields, isArrO]; done))
         | (injection hf with hf
            subst hf
            try split at hin
            all_goals (simp_all [mem_presentFields, isArrO]; done)))
    | (split at hp <;> first
        | exact Option.noConfusion hp
        | (injection hp with hp
           subst hp
           first
             | rw [bNAeq_read_file] at hf
             | rw [bNAeq_attempt_completion] at hf
             | rw [bNAeq_execute_command] at hf
             | rw [bNAeq_apply_diff] at hf
             | rw [bNAeq_search_and_replace] at hf
             | rw [bNAeq_ask_followup_question] at hf
             | rw [bNAeq_browser_action] at hf
             | rw [bNAeq_codebase_search] at hf
             | rw [bNAeq_fetch_instructions] at hf
             | rw [bNAeq_generate_image] at hf
             | rw [bNAeq_run_slash_command] at hf
             | rw [bNAeq_search_files] at hf
             | rw [bNAeq_switch_mode] at hf
             | rw [bNAeq_update_todo_list] at hf
             | rw [bNAeq_read_command_output] at hf
             | rw [bNAeq_write_to_file] at hf
             | rw [bNAeq_use_mcp_tool] at hf
             | rw [bNAeq_access_mcp_resource] at hf
             | rw [bNAeq_apply_patch] at hf
             | rw [bNAeq_search_replace] at hf
             | rw [bNAeq_edit_file] at hf
             | rw [bNAeq_list_files] at hf
             | rw [bNAeq_new_task] at hf
             | rw [bNAeq_browser_open] at hf
             | rw [bNAeq_browser_close] at hf
             | rw [bNAeq_browser_action_input] at hf
             | rw [bNAeq_browser_navigate] at hf
             | rw [bNAeq_browser_reload] at hf
             | rw [bNAeq_browser_screenshot] at hf
             | rw [bNAeq_browser_execute_script] at hf
             | rw [bNAeq_browser_inspect_element] at hf
             | rw [bNAeq_browser_get_errors] at hf
             | rw [bNAeq_browser_get_console_logs] at hf
             | rw [bNAeq_browser_get_performance] at hf
             | rw [bNAeq_browser_get_state] at hf
             | rw [bNAeq_browser_set_viewport] at hf
             | rw [bNAeq_browser_get_network_requests] at hf
             | rw [bNAeq_project_get_active] at hf
             | rw [bNAeq_project_start] at hf
             | rw [bNAeq_project_stop] at hf
             | rw [bNAeq_canvas_list] at hf
             | rw [bNAeq_canvas_get_active] at hf
             | rw [bNAeq_canvas_create] at hf
             | rw [bNAeq_canvas_open] at hf
             | rw [bNAeq_canvas_validate_components] at hf
             | rw [bNAeq_component_add] at hf
             | rw [bNAeq_component_add_batch] at hf
             | rw [bNAeq_component_remove] at hf
             | rw [bNAeq_component_get_info] at hf
             | rw [bNAeq_component_list] at hf
             | rw [bNAeq_component_rebuild] at hf
           try split at hf
           all_goals first
             | exact Option.noConfusion hf
             | (subst hf
                try split at hin
                all_goals (simp_all [mem_presentFields, isArrO]; done))
             | (injection hf with hf
                subst hf
                try split at hin
                all_goals (simp_all [mem_presentFields, isArrO]; done))))

/-- Lookup after update at the same key. -/
theorem mapGet_mapSet_self {α β : Type} [DecidableEq α] (m : List (α × β)) (k : α) (v : β) :
    mapGet (mapSet m k v) k = some v := by
  induction m with
  | nil => simp [mapSet, mapGet]
  | cons p rest ih =>
    rcases p with ⟨k', v'⟩
    by_cases h : k' = k <;> simp [mapSet, mapGet, h, ih]

/-- Lookup after update at a different key. -/
theorem mapGet_mapSet_ne {α β : Type} [DecidableEq α] (m : List (α × β)) (k k' : α) (v : β)
    (h : k' ≠ k) : mapGet (mapSet m k v) k' = mapGet m k' := by
  have hk : ¬ k = k' := fun hh => h hh.symm
  induction m with
  | nil => simp [mapSet, mapGet, hk]
  | cons p rest ih =>
    rcases p with ⟨a, b⟩
    by_cases ha : a = k
    · subst ha
      simp [mapSet, mapGet, hk]
    · by_cases ha' : a = k' <;> simp [mapSet, mapGet, ha, ha', ih, h, hk]

/-- Lookup after deletion at the same key. -/
theorem mapGet_mapDelete_self {α β : Type} [DecidableEq α] (m : List (α × β)) (k : α) :
    mapGet (mapDelete m k) k = none := by
  induction m with
  | nil => simp [mapDelete, mapGet]
  | cons p rest ih =>
    rcases p with ⟨a, b⟩
    by_cases ha : a = k
    · simpa [mapDelete, ha] using ih
    · simpa [mapDelete, mapGet, ha] using ih

/-- Lookup after deletion at a different key. -/
theorem mapGet_mapDelete_ne {α β : Type} [DecidableEq α] (m : List (α × β)) (k k' : α)
    (h : k' ≠ k) : mapGet (mapDelete m k) k' = mapGet m k' := by
  have hk : ¬ k = k' := fun hh => h hh.symm
  induction m with
  | nil => simp [mapDelete, mapGet]
  | cons p rest ih =>
    rcases p with ⟨a, b⟩
    by_cases ha : a = k
    · subst ha
      simp [mapDelete, mapGet, hk, ih]
    · by_cases ha' : a = k' <;> simp [mapDelete, mapGet, ha, ha', ih, h, hk]

/-- processStreamingChunk on an unknown id is a logged no-op. -/
theorem processStreamingChunk_unknown (st : ParserState) (id c : String)
    (h : mapGet st.streamingToolCalls id = none) :
    processStreamingChunk st id c = (none, st) := by
  unfold processStreamingChunk
  rw [h]

/-- The state produced by processStreamingChunk on a known id: the
entry accumulates the fragment, in every branch. -/
theorem processStreamingChunk_state (st : ParserState) (id c : String) (e : StreamEntry)
    (h : mapGet st.streamingToolCalls id = some e) :
    (processStreamingChunk st id c).2 =
      { st with streamingToolCalls :=
          (mapSet st.streamingToolCalls id
            { e with argumentsAccumulator := e.argumentsAccumulator ++ c }) } := by
  unfold processStreamingChunk
  rw [h]
  dsimp only
  split <;> first
    | rfl
    | (split <;> rfl)

/-- finalizeStreamingToolCall on an unknown id is a logged no-op. -/
theorem finalizeStreamingToolCall_unknown (custom : List String) (st : ParserState) (id : String)
    (h : mapGet st.streamingToolCalls id = none) :
    finalizeStreamingToolCall custom st id = (none, st) := by
  unfold finalizeStreamingToolCall
  rw [h]

/-- finalizeStreamingToolCall on a known id runs the strict parse on
the accumulated text and deletes the entry, in every outcome. -/
theorem finalizeStreamingToolCall_known (custom : List String) (st : ParserState) (id : String)
    (e : StreamEntry) (h : mapGet st.streamingToolCalls id = some e) :
    finalizeStreamingToolCall custom st id =
      (parseToolCall custom { id := e.id, name := e.name, arguments := e.argumentsAccumulator },
       { st with streamingToolCalls := mapDelete st.streamingToolCalls id }) := by
  unfold finalizeStreamingToolCall
  rw [h]

theorem concatStr_nil : concatStr [] = "" := rfl

theorem concatStr_cons (a : String) (l : List String) :
    concatStr (a :: l) = a ++ concatStr l := rfl

theorem concatStr_append (l1 l2 : List String) :
    concatStr (l1 ++ l2) = concatStr l1 ++ concatStr l2 := by
  induction l1 with
  | nil => simp [concatStr]
  | cons a l ih =>
    simp only [List.cons_append, concatStr_cons, ih, String.append_assoc]

theorem concatStr_one (a : String) : concatStr [a] = a := by
  simp [concatStr]

theorem deltaTexts_append (l1 l2 : List ToolCallStreamEvent) :
    deltaTexts (l1 ++ l2) = deltaTexts l1 ++ deltaTexts l2 := by
  simp [deltaTexts]

theorem deltaTexts_flush (i : String) (l : List String) :
    deltaTexts (l.map (ToolCallStreamEvent.delta i)) = l := by
  induction l with
  | nil => rfl
  | cons a l ih => simp_all [deltaTexts]

theorem deltaTexts_start_cons (i n : String) (evs : List ToolCallStreamEvent) :
    deltaTexts (ToolCallStreamEvent.start i n :: evs) = deltaTexts evs := by
  simp [deltaTexts]

theorem deltaTexts_delta_one (i t : String) :
    deltaTexts [ToolCallStreamEvent.delta i t] = [t] := rfl

theorem filterMap_delta (i : String) (l : List String) :
    List.filterMap ((fun ev =>
      match ev with
      | ToolCallStreamEvent.delta _ t => some t
      | _ => none) ∘ ToolCallStreamEvent.delta i) l = l := by
  induction l with
  | nil => rfl
  | cons a l ih => simpa [List.filterMap_cons] using ih

theorem rawNameUpdate_spec (c : RawChunk) (e0 : RawTracked) :
    (rawNameUpdate c e0).id = e0.id ∧
    (rawNameUpdate c e0).hasStarted = e0.hasStarted ∧
    (rawNameUpdate c e0).deltaBuffer = e0.deltaBuffer := by
  unfold rawNameUpdate
  split <;> first
    | exact ⟨rfl, rfl, rfl⟩
    | (split <;> exact ⟨rfl, rfl, rfl⟩)

theorem rawStartPhase_spec (e1 : RawTracked)
    (hb : e1.hasStarted = true → e1.deltaBuffer = []) :
    (rawStartPhase e1).2.id = e1.id ∧
    ((rawStartPhase e1).2.hasStarted = true → (rawStartPhase e1).2.deltaBuffer = []) ∧
    (e1.hasStarted = true → (rawStartPhase e1).2.hasStarted = true) ∧
    concatStr (deltaTexts (rawStartPhase e1).1) ++ concatStr (rawStartPhase e1).2.deltaBuffer =
      concatStr e1.deltaBuffer := by
  unfold rawStartPhase
  split <;>
    simp_all [deltaTexts_flush, deltaTexts_start_cons, concatStr_nil, concatStr_append,
      String.append_empty, String.empty_append, deltaTexts, filterMap_delta]

theorem rawArgsPhase_spec (c : RawChunk) (p1 : List ToolCallStreamEvent × RawTracked)
    (hb : p1.2.hasStarted = true → p1.2.deltaBuffer = []) :
    (rawArgsPhase c p1).2.id = p1.2.id ∧
    (rawArgsPhase c p1).2.hasStarted = p1.2.hasStarted ∧
    ((rawArgsPhase c p1).2.hasStarted = true → (rawArgsPhase c p1).2.deltaBuffer = []) ∧
    concatStr (deltaTexts (rawArgsPhase c p1).1) ++ concatStr (rawArgsPhase c p1).2.deltaBuffer =
      concatStr (deltaTexts p1.1) ++ (concatStr p1.2.deltaBuffer ++ argsText c) := by
  unfold rawArgsPhase
  split <;> try split <;> try split
  all_goals
    simp_all [argsText, deltaTexts_append, deltaTexts_delta_one, concatStr_append,
      concatStr_cons, concatStr_nil, concatStr_one, String.append_empty, String.empty_append,
      String.append_assoc]

theorem processRawChunkGo_spec (t1 : List (Nat × RawTracked)) (st : ParserState)
    (c : RawChunk) (e0 : RawTracked) (hb : e0.hasStarted = true → e0.deltaBuffer = []) :
    ∃ e3, (processRawChunkGo t1 st c e0).2.rawChunkTracker = mapSet t1 c.index e3 ∧
      e3.id = e0.id ∧
      (e3.hasStarted = true → e3.deltaBuffer = []) ∧
      (e0.hasStarted = true → e3.hasStarted = true) ∧
      concatStr (deltaTexts (processRawChunkGo t1 st c e0).1) ++ concatStr e3.deltaBuffer =
        concatStr e0.deltaBuffer ++ argsText c := by
  obtain ⟨hn1, hn2, hn3⟩ := rawNameUpdate_spec c e0
  have hb1 : (rawNameUpdate c e0).hasStarted = true → (rawNameUpdate c e0).deltaBuffer = [] := by
    rw [hn2, hn3]; exact hb
  obtain ⟨hs1, hs2, hs3, hs4⟩ := rawStartPhase_spec (rawNameUpdate c e0) hb1
  obtain ⟨ha1, ha2, ha3, ha4⟩ := rawArgsPhase_spec c (rawStartPhase (rawNameUpdate c e0)) hs2
  refine ⟨(rawArgsPhase c (rawStartPhase (rawNameUpdate c e0))).2, rfl,
    by rw [ha1, hs1, hn1], ha3, ?_, ?_⟩
  · intro hstart
    rw [ha2]
    exact hs3 (by rw [hn2]; exact hstart)
  · have hgo1 : (processRawChunkGo t1 st c e0).1
        = (rawArgsPhase c (rawStartPhase (rawNameUpdate c e0))).1 := rfl
    rw [hgo1, ha4, ← String.append_assoc, hs4, hn3]

theorem processRawChunkGo_tracker (t1 : List (Nat × RawTracked)) (st : ParserState)
    (c : RawChunk) (e0 : RawTracked) :
    (processRawChunkGo t1 st c e0).2.rawChunkTracker =
      mapSet t1 c.index (rawArgsPhase c (rawStartPhase (rawNameUpdate c e0))).2 := rfl

theorem processRawChunk_known (st : ParserState) (c : RawChunk) (e0 : RawTracked)
    (h : mapGet st.rawChunkTracker c.index = some e0) :
    processRawChunk st c = processRawChunkGo st.rawChunkTracker st c e0 := by
  unfold processRawChunk
  rw [h]

theorem processRawChunk_new (st : ParserState) (c : RawChunk) (i : String)
    (h0 : mapGet st.rawChunkTracker c.index = none) (hid : c.id = some i) (hne : i ≠ "") :
    processRawChunk st c =
      processRawChunkGo
        (mapSet st.rawChunkTracker c.index
          { id := i, name := c.name.getD "", hasStarted := false, deltaBuffer := [] })
        st c
        { id := i, name := c.name.getD "", hasStarted := false, deltaBuffer := [] } := by
  unfold processRawChunk
  rw [h0, hid]
  simp [hne]

theorem processRawChunk_drop (st : ParserState) (c : RawChunk)
    (h0 : mapGet st.rawChunkTracker c.index = none)
    (hid : c.id = none ∨ c.id = some "") :
    processRawChunk st c = ([], st) := by
  unfold processRawChunk
  rcases hid with hid | hid <;> rw [h0, hid] <;> simp

theorem processRawChunk_step (st : ParserState) (c : RawChunk) (e : RawTracked)
    (h : mapGet st.rawChunkTracker c.index = some e)
    (hb : e.hasStarted = true → e.deltaBuffer = []) :
    ∃ e', mapGet ((processRawChunk st c).2).rawChunkTracker c.index = some e' ∧
      e'.id = e.id ∧
      (e'.hasStarted = true → e'.deltaBuffer = []) ∧
      (e.hasStarted = true → e'.hasStarted = true) ∧
      concatStr (deltaTexts (processRawChunk st c).1) ++ concatStr e'.deltaBuffer =
        concatStr e.deltaBuffer ++ argsText c := by
  rw [processRawChunk_known st c e h]
  obtain ⟨e3, hg, hrest⟩ := processRawChunkGo_spec st.rawChunkTracker st c e hb
  exact ⟨e3, by rw [hg]; exact mapGet_mapSet_self _ _ _, hrest⟩

theorem processRawChunk_create (st : ParserState) (c : RawChunk) (i : String)
    (h0 : mapGet st.rawChunkTracker c.index = none) (hid : c.id = some i) (hne : i ≠ "") :
    ∃ e', mapGet ((processRawChunk st c).2).rawChunkTracker c.index = some e' ∧
      e'.id = i ∧
      (e'.hasStarted = true → e'.deltaBuffer = []) ∧
      concatStr (deltaTexts (processRawChunk st c).1) ++ concatStr e'.deltaBuffer =
        argsText c := by
  rw [processRawChunk_new st c i h0 hid hne]
  obtain ⟨e3, hg, hid3, hb3, _, heq3⟩ := processRawChunkGo_spec _ st c
    { id := i, name := c.name.getD "", hasStarted := false, deltaBuffer := [] }
    (by intro hh; simp at hh)
  refine ⟨e3, ?_, hid3, hb3, ?_⟩
  · rw [hg]
    exact mapGet_mapSet_self _ _ _
  · simpa [concatStr_nil, String.empty_append] using heq3

theorem processRawChunk_frame (st : ParserState) (c : RawChunk) (n : Nat)
    (hne : n ≠ c.index) :
    mapGet ((processRawChunk st c).2).rawChunkTracker n = mapGet st.rawChunkTracker n := by
  cases h0 : mapGet st.rawChunkTracker c.index with
  | some e0 =>
    rw [processRawChunk_known st c e0 h0, processRawChunkGo_tracker]
    exact mapGet_mapSet_ne _ _ _ _ hne
  | none =>
    cases hid : c.id with
    | none => rw [processRawChunk_drop st c h0 (Or.inl hid)]
    | some i =>
      by_cases hi : i = ""
      · subst hi
        rw [processRawChunk_drop st c h0 (Or.inr hid)]
      · rw [processRawChunk_new st c i h0 hid hi, processRawChunkGo_tracker,
          mapGet_mapSet_ne _ _ _ _ hne, mapGet_mapSet_ne _ _ _ _ hne]

theorem processRawChunk_preserves (st : ParserState) (c : RawChunk) (n : Nat) (e : RawTracked)
    (h : mapGet st.rawChunkTracker n = some e) :
    ∃ e', mapGet ((processRawChunk st c).2).rawChunkTracker n = some e' := by
  by_cases hn : n = c.index
  · subst hn
    rw [processRawChunk_known st c e h, processRawChunkGo_tracker]
    exact ⟨_, mapGet_mapSet_self _ _ _⟩
  · exact ⟨e, (processRawChunk_frame st c n hn).trans h⟩

theorem applyRawChunks_invariant (n : Nat) (cs : List RawChunk) :
    ∀ (st : ParserState) (e : RawTracked),
    (∀ c ∈ cs, c.index = n) →
    mapGet st.rawChunkTracker n = some e →
    (e.hasStarted = true → e.deltaBuffer = []) →
    ∃ e', mapGet ((applyRawChunks st cs).2).rawChunkTracker n = some e' ∧
      e'.id = e.id ∧
      (e'.hasStarted = true → e'.deltaBuffer = []) ∧
      (e.hasStarted = true → e'.hasStarted = true) ∧
      concatStr (deltaTexts (applyRawChunks st cs).1) ++ concatStr e'.deltaBuffer =
        concatStr e.deltaBuffer ++ concatStr (cs.map argsText) := by
  induction cs with
  | nil =>
    intro st e _ h hb
    refine ⟨e, h, rfl, hb, fun x => x, ?_⟩
    simp [applyRawChunks, deltaTexts, concatStr, String.append_empty, String.empty_append]
  | cons c rest ih =>
    intro st e hall h hb
    have hidx : c.index = n := hall c (List.mem_cons_self _ _)
    rw [← hidx] at h
    obtain ⟨e1, h1, hid1, hb1, hmono1, heq1⟩ := processRawChunk_step st c e h hb
    rw [hidx] at h1
    obtain ⟨e2, h2, hid2, hb2, hmono2, heq2⟩ :=
      ih (processRawChunk st c).2 e1 (fun d hd => hall d (List.mem_cons_of_mem _ hd)) h1 hb1
    have hsplit1 : (applyRawChunks st (c :: rest)).1
        = (processRawChunk st c).1 ++ (applyRawChunks (processRawChunk st c).2 rest).1 := rfl
    have hsplit2 : (applyRawChunks st (c :: rest)).2
        = (applyRawChunks (processRawChunk st c).2 rest).2 := rfl
    refine ⟨e2, by rw [hsplit2]; exact h2, hid2.trans hid1, hb2,
      fun hs => hmono2 (hmono1 hs), ?_⟩
    rw [hsplit1, deltaTexts_append, concatStr_append]
    calc concatStr (deltaTexts (processRawChunk st c).1) ++
          concatStr (deltaTexts (applyRawChunks (processRawChunk st c).2 rest).1) ++
          concatStr e2.deltaBuffer
        = concatStr (deltaTexts (processRawChunk st c).1) ++
            (concatStr (deltaTexts (applyRawChunks (processRawChunk st c).2 rest).1) ++
             concatStr e2.deltaBuffer) := by rw [String.append_assoc]
      _ = concatStr (deltaTexts (processRawChunk st c).1) ++
            (concatStr e1.deltaBuffer ++ concatStr (rest.map argsText)) := by rw [heq2]
      _ = concatStr (deltaTexts (processRawChunk st c).1) ++ concatStr e1.deltaBuffer ++
            concatStr (rest.map argsText) := by rw [String.append_assoc]
      _ = (concatStr e.deltaBuffer ++ argsText c) ++ concatStr (rest.map argsText) := by
            rw [heq1]
      _ = concatStr e.deltaBuffer ++ concatStr ((c :: rest).map argsText) := by
            rw [List.map_cons, concatStr_cons, String.append_assoc]

theorem applyDeltas_accumulates (ds : List (String × String)) :
    ∀ (st : ParserState) (id : String) (e : StreamEntry),
    mapGet st.streamingToolCalls id = some e →
    mapGet (applyDeltas st ds).streamingToolCalls id =
      some { e with argumentsAccumulator :=
        (e.argumentsAccumulator ++
          concatStr ((ds.filter (fun d => d.1 = id)).map (fun d => d.2))) } := by
  induction ds with
  | nil =>
    intro st id e h
    have : applyDeltas st [] = st := rfl
    rw [this]
    simpa [concatStr_nil, String.append_empty] using h
  | cons d rest ih =>
    intro st id e h
    rcases d with ⟨i, t⟩
    have hstep : applyDeltas st ((i, t) :: rest) =
        applyDeltas (processStreamingChunk st i t).2 rest := rfl
    rw [hstep]
    by_cases hi : i = id
    · subst hi
      have hstate := processStreamingChunk_state st i t e h
      have h2 : mapGet ((processStreamingChunk st i t).2).streamingToolCalls i =
          some { e with argumentsAccumulator := e.argumentsAccumulator ++ t } := by
        rw [hstate]
        exact mapGet_mapSet_self _ _ _
      have := ih (processStreamingChunk st i t).2 i _ h2
      rw [this]
      simp [List.filter_cons, concatStr_cons, String.append_assoc]
    · have hkeep : mapGet ((processStreamingChunk st i t).2).streamingToolCalls id = some e := by
        cases hg : mapGet st.streamingToolCalls i with
        | none => rw [processStreamingChunk_unknown st i t hg]; exact h
        | some e2 =>
          rw [processStreamingChunk_state st i t e2 hg]
          have hne : id ≠ i := fun hh => hi hh.symm
          rw [mapGet_mapSet_ne _ _ _ _ hne]
          exact h
      have := ih (processStreamingChunk st i t).2 id e hkeep
      rw [this]
      simp [List.filter_cons, hi]

theorem jgetF_jsOr (a : Json) : jgetF (jsOr a) = jgetF a := by
  funext k
  unfold jgetF jsOr
  cases a with
  | null => rfl
  | bool b => cases b <;> rfl
  | num n => by_cases h : n = 0 <;> simp [jsTruthy, h, jget, mapGet]
  | str s => by_cases h : s = "" <;> simp [jsTruthy, h, jget, mapGet]
  | arr l => rfl
  | obj f => rfl

theorem processStreamingChunk_some_inv (st : ParserState) (id chunk : String)
    (e : StreamEntry) (t : ToolUse) (st' : ParserState)
    (h : mapGet st.streamingToolCalls id = some e)
    (hr : processStreamingChunk st id chunk = (some t, st')) :
    strStartsWith e.name mcpNamePre = false ∧
    ∃ pa, parsePartialJSON (e.argumentsAccumulator ++ chunk) = some pa ∧
      t = createPartialToolUse e.id (resolveToolAlias e.name) (jsOr pa) true
            (if e.name ≠ resolveToolAlias e.name then some e.name else none) ∧
      st' = { st with streamingToolCalls :=
        (mapSet st.streamingToolCalls id
          { e with argumentsAccumulator := e.argumentsAccumulator ++ chunk }) } := by
  unfold processStreamingChunk at hr
  rw [h] at hr
  dsimp only at hr
  split at hr
  next => exact absurd (congrArg Prod.fst hr) (by simp)
  next hmcp =>
    split at hr
    next => exact absurd (congrArg Prod.fst hr) (by simp)
    next pa hpa =>
      have h1 := congrArg Prod.fst hr
      have h2 := congrArg Prod.snd hr
      simp only at h1 h2
      refine ⟨by simpa using hmcp, pa, hpa, ?_, h2.symm⟩
      exact (Option.some.inj h1).symm

theorem parseToolCall_toolUse_inv (custom : List String) (tc : RawToolCall) (t : ToolUse)
    (h : parseToolCall custom tc = some (.toolUse t)) :
    ∃ args entries,
      strStartsWith (normalizeMcpToolName tc.name) mcpNamePre = false ∧
      ¬(resolveToolAlias tc.name ∉ toolNames ∧ resolveToolAlias tc.name ∉ custom) ∧
      (if tc.arguments = "" then some (Json.obj []) else jsonParse tc.arguments) = some args ∧
      jsEntriesE args = some entries ∧
      ¬((buildNativeArgsG custom (resolveToolAlias tc.name) (jgetF args) args).isNone = true
         ∧ resolveToolAlias tc.name ∉ custom) ∧
      t = { name := resolveToolAlias tc.name
            originalName := if tc.name ≠ resolveToolAlias tc.name then some tc.name else none
            params := strictParamsOf custom (resolveToolAlias tc.name) entries
            partialFlag := false
            nativeArgs := buildNativeArgsG custom (resolveToolAlias tc.name) (jgetF args) args } := by
  unfold parseToolCall at h
  dsimp only at h
  split at h
  next hmcp =>
    cases hpd : parseDynamicMcpTool { tc with name := normalizeMcpToolName tc.name } <;>
      rw [hpd] at h <;> simp at h
  next hmcp =>
    split at h
    next => simp at h
    next hname =>
      split at h
      next => simp at h
      next args hargs =>
        split at h
        next => simp at h
        next entries hent =>
          split at h
          next => simp at h
          next hguard =>
            refine ⟨args, entries, by simpa using hmcp, hname, hargs, hent, hguard, ?_⟩
            have := Option.some.inj h
            cases this
            rfl

/-- C4: on the finish reason tool_calls, processFinishReason emits
exactly one end event per tracked raw-chunk index, in tracking order,
regardless of started state (so an end event can be emitted for a
never-started call); finalizeRawChunks emits end events only for
indices that reached hasStarted and then clears all raw-chunk tracking
state. -/
theorem c4_finish_reason_end_events : ∀ st : ParserState,
    (processFinishReason st (some "tool_calls")).1 =
      st.rawChunkTracker.map (fun p => ToolCallStreamEvent.endEv p.2.id) ∧
    (finalizeRawChunks st).1 =
      st.rawChunkTracker.filterMap
        (fun p => if p.2.hasStarted then some (ToolCallStreamEvent.endEv p.2.id) else none) ∧
    (finalizeRawChunks st).2.rawChunkTracker = [] := by
  intro st
  rcases hst : st.rawChunkTracker with _ | ⟨p, rest⟩ <;>
    refine ⟨?_, ?_, ?_⟩ <;>
    simp [processFinishReason, finalizeRawChunks, hst]

/-- C10: processFinishReason emits its end events without touching any
state, so every tracked index survives it and a subsequent
finalizeRawChunks emits a second end event for every started index;
processRawChunk never removes a tracked index, the streaming entry
points never touch the raw-chunk tracker, and only finalizeRawChunks
and clearRawChunkState clear it. -/
theorem c10_finish_reason_preserves_state :
    ∀ (st : ParserState) (r : Option String) (c : RawChunk) (id chunk nm : String)
      (custom : List String),
    (processFinishReason st r).2 = st ∧
    (∀ n e, mapGet st.rawChunkTracker n = some e →
       ∃ e', mapGet ((processRawChunk st c).2).rawChunkTracker n = some e') ∧
    (finalizeRawChunks (processFinishReason st (some "tool_calls")).2).1 =
      st.rawChunkTracker.filterMap
        (fun p => if p.2.hasStarted then some (ToolCallStreamEvent.endEv p.2.id) else none) ∧
    (processStreamingChunk st id chunk).2.rawChunkTracker = st.rawChunkTracker ∧
    (startStreamingToolCall st id nm).rawChunkTracker = st.rawChunkTracker ∧
    (finalizeStreamingToolCall custom st id).2.rawChunkTracker = st.rawChunkTracker ∧
    (clearRawChunkState st).rawChunkTracker = [] := by
  intro st r c id chunk nm custom
  have hpf : (processFinishReason st r).2 = st := rfl
  refine ⟨hpf, fun n e he => processRawChunk_preserves st c n e he, ?_, ?_, rfl, ?_, rfl⟩
  · have hpf2 : (processFinishReason st (some "tool_calls")).2 = st := rfl
    rw [hpf2]
    rcases hst : st.rawChunkTracker with _ | ⟨p, rest⟩ <;>
      simp [finalizeRawChunks, hst]
  · cases hg : mapGet st.streamingToolCalls id with
    | none => rw [processStreamingChunk_unknown st id chunk hg]
    | some e => rw [processStreamingChunk_state st id chunk e hg]
  · cases hg : mapGet st.streamingToolCalls id with
    | none => rw [finalizeStreamingToolCall_unknown custom st id hg]
    | some e => rw [finalizeStreamingToolCall_known custom st id e hg]

/-- C6: finalizeStreamingToolCall deletes the internal streaming state
of the call whatever the outcome; appendDelta and finalize on an id
that was never begun or was already finalized return null and leave
the whole state unchanged; and on a known id neither entry point
mutates the streaming state of any other tracked call. -/
theorem c6_finalize_deletes_and_unknown_safe :
    ∀ (custom : List String) (st : ParserState) (id c : String),
    mapGet ((finalizeStreamingToolCall custom st id).2).streamingToolCalls id = none ∧
    (mapGet st.streamingToolCalls id = none →
      finalizeStreamingToolCall custom st id = (none, st) ∧
      processStreamingChunk st id c = (none, st)) ∧
    (∀ other, other ≠ id →
      mapGet ((finalizeStreamingToolCall custom st id).2).streamingToolCalls other =
        mapGet st.streamingToolCalls other) ∧
    (∀ other, other ≠ id →
      mapGet ((processStreamingChunk st id c).2).streamingToolCalls other =
        mapGet st.streamingToolCalls other) := by
  intro custom st id c
  refine ⟨?_, ?_, ?_, ?_⟩
  · cases hg : mapGet st.streamingToolCalls id with
    | none => rw [finalizeStreamingToolCall_unknown custom st id hg]; exact hg
    | some e =>
      rw [finalizeStreamingToolCall_known custom st id e hg]
      exact mapGet_mapDelete_self _ _
  · intro hg
    exact ⟨finalizeStreamingToolCall_unknown custom st id hg,
      processStreamingChunk_unknown st id c hg⟩
  · intro other hne
    cases hg : mapGet st.streamingToolCalls id with
    | none => rw [finalizeStreamingToolCall_unknown custom st id hg]
    | some e =>
      rw [finalizeStreamingToolCall_known custom st id e hg]
      exact mapGet_mapDelete_ne _ _ _ hne
  · intro other hne
    cases hg : mapGet st.streamingToolCalls id with
    | none => rw [processStreamingChunk_unknown st id c hg]
    | some e =>
      rw [processStreamingChunk_state st id c e hg]
      exact mapGet_mapSet_ne _ _ _ _ hne

/-- C6 witness: the theorem applied at a concrete never-begun id. -/
theorem c6_witness :
    finalizeStreamingToolCall [] initialParserState "ghost" = (none, initialParserState) ∧
    processStreamingChunk initialParserState "ghost" "x" = (none, initialParserState) :=
  (c6_finalize_deletes_and_unknown_safe [] initialParserState "ghost" "x").2.1 rfl

/-- C10 witness: the theorem applied at a concrete tracker state. -/
theorem c10_witness :
    ∃ e', mapGet ((processRawChunk
        (⟨[], [(0, ⟨"a", "", false, []⟩)]⟩ : ParserState)
        ⟨0, none, none, some "zz"⟩).2).rawChunkTracker 0 = some e' :=
  (c10_finish_reason_preserves_state (⟨[], [(0, ⟨"a", "", false, []⟩)]⟩ : ParserState)
    (some "stop") ⟨0, none, none, some "zz"⟩ "i" "x" "n" []).2.1 0 ⟨"a", "", false, []⟩ rfl

/-- C5 counterexample: the claim fails on the alternate-separator
variant.  The name mcp__srv__tool is exactly the variant that
normalize rewrites to the canonical dynamic format (shown by the first
two conjuncts), yet processStreamingChunk returns a record, not null,
for a delta on a call registered under that name. -/
theorem c5_counterexample :
    normalizeMcpToolName "mcp__srv__tool" = "mcp--srv--tool" ∧
    parseMcpToolName (normalizeMcpToolName "mcp__srv__tool") = some ("srv", "tool") ∧
    ((processStreamingChunk
        (startStreamingToolCall initialParserState "c1" "mcp__srv__tool")
        "c1" "\x7b\x7d").1).isSome = true :=
  ⟨rfl, rfl, rfl⟩

/-- C5 amended: partial decoding is suppressed (appendDelta returns
null on every delta) exactly for call ids registered under a name that
starts with the canonical dynamic-tool marker mcp--; the
alternate-separator variant is not normalized on the partial path and
is therefore not suppressed. -/
theorem c5_amended_canonical_only :
    ∀ (st : ParserState) (id chunk : String) (e : StreamEntry),
    mapGet st.streamingToolCalls id = some e →
    strStartsWith e.name mcpNamePre = true →
    (processStreamingChunk st id chunk).1 = none := by
  intro st id chunk e h hpre
  unfold processStreamingChunk
  rw [h]
  dsimp only
  simp [hpre]

/-- C5 witness: the amended theorem applied at a canonical dynamic
name. -/
theorem c5_witness :
    (processStreamingChunk
      (startStreamingToolCall initialParserState "c1" "mcp--srv--tool")
      "c1" "\x7b\x7d").1 = none :=
  c5_amended_canonical_only
    (startStreamingToolCall initialParserState "c1" "mcp--srv--tool")
    "c1" "\x7b\x7d" ⟨"c1", "mcp--srv--tool", ""⟩ rfl rfl

/-- C9: empty accumulated text is strictly parsed as an empty JSON
object rather than a parse error (finalizing a static tool with no
required fields from empty text succeeds, shown at canvas_get_active);
non-empty accumulated text that is not valid JSON makes finalize
return null for that call. -/
theorem c9_empty_text_and_invalid_json :
    (∀ (custom : List String) (id name : String),
      parseToolCall custom ⟨id, name, ""⟩ = parseToolCall custom ⟨id, name, "\x7b\x7d"⟩) ∧
    ((finalizeStreamingToolCall []
        (startStreamingToolCall initialParserState "c1" "canvas_get_active") "c1").1 =
      some (.toolUse { name := "canvas_get_active", originalName := none, params := [],
                       partialFlag := false, nativeArgs := some (.fields []) })) ∧
    (∀ (custom : List String) (st : ParserState) (id : String) (e : StreamEntry),
      mapGet st.streamingToolCalls id = some e →
      e.argumentsAccumulator ≠ "" →
      jsonParse e.argumentsAccumulator = none →
      (finalizeStreamingToolCall custom st id).1 = none) := by
  refine ⟨?_, rfl, ?_⟩
  · intro custom id name
    rfl
  · intro custom st id e h hne hbad
    rw [finalizeStreamingToolCall_known custom st id e h]
    dsimp only
    unfold parseToolCall
    dsimp only
    split
    · unfold parseDynamicMcpTool
      rw [if_neg hne, hbad]
      rfl
    · split
      next => rfl
      next =>
        rw [hbad]

/-- C9 witness: the theorem applied at a concrete entry holding the
invalid non-empty text consisting of one opening brace. -/
theorem c9_witness :
    (finalizeStreamingToolCall []
      (⟨[("c1", ⟨"c1", "canvas_list", "\x7b"⟩)], []⟩ : ParserState) "c1").1 = none :=
  c9_empty_text_and_invalid_json.2.2 []
    (⟨[("c1", ⟨"c1", "canvas_list", "\x7b"⟩)], []⟩ : ParserState) "c1"
    ⟨"c1", "canvas_list", "\x7b"⟩ rfl (by decide) rfl

/-- C8: a record produced by the parser carries originalName present
and equal to the exact emitted name when and only when the canonical
name after alias resolution differs from the emitted name, identically
on the partial path (processStreamingChunk) and on the final path
(parseToolCall); in both cases the record name is the resolved
canonical name. -/
theorem c8_original_name_iff_alias :
    (∀ (st : ParserState) (id chunk : String) (e : StreamEntry) (t : ToolUse)
       (st' : ParserState),
      mapGet st.streamingToolCalls id = some e →
      processStreamingChunk st id chunk = (some t, st') →
      t.name = resolveToolAlias e.name ∧
      t.originalName = (if e.name = resolveToolAlias e.name then none else some e.name)) ∧
    (∀ (custom : List String) (tc : RawToolCall) (t : ToolUse),
      parseToolCall custom tc = some (.toolUse t) →
      t.name = resolveToolAlias tc.name ∧
      t.originalName = (if tc.name = resolveToolAlias tc.name then none else some tc.name)) := by
  constructor
  · intro st id chunk e t st' h hr
    obtain ⟨-, pa, -, ht, -⟩ := processStreamingChunk_some_inv st id chunk e t st' h hr
    subst ht
    unfold createPartialToolUse
    refine ⟨rfl, ?_⟩
    by_cases hal : e.name = resolveToolAlias e.name
    · dsimp only
      rw [if_neg (not_not_intro hal), if_pos hal]
    · have hnn : e.name ≠ "" := by
        intro hh
        rw [hh] at hal
        exact hal rfl
      dsimp only
      rw [if_pos hal, if_neg hal]
      dsimp only
      rw [if_pos hnn]
  · intro custom tc t h
    obtain ⟨args, entries, -, -, -, -, -, ht⟩ := parseToolCall_toolUse_inv custom tc t h
    subst ht
    refine ⟨rfl, ?_⟩
    by_cases hal : tc.name = resolveToolAlias tc.name
    · dsimp only
      rw [if_neg (not_not_intro hal), if_pos hal]
    · dsimp only
      rw [if_pos hal, if_neg hal]

/-- C8 witness: the theorem applied at the alias write_file, whose
canonical name is write_to_file. -/
theorem c8_witness :
    (parseToolCall []
        ⟨"i", "write_file", "\x7b\"path\":\"p\",\"content\":\"c\"\x7d"⟩ =
      some (.toolUse
        { name := "write_to_file", originalName := some "write_file",
          params := [("path", "p"), ("content", "c")], partialFlag := false,
          nativeArgs := some (.fields [("path", some (.str "p")),
            ("content", some (.str "c"))]) })) ∧
    "write_to_file" = resolveToolAlias "write_file" ∧
    some "write_file" =
      (if "write_file" = resolveToolAlias "write_file" then none else some "write_file") := by
  refine ⟨rfl, ?_, ?_⟩
  · exact (c8_original_name_iff_alias.2 []
      ⟨"i", "write_file", "\x7b\"path\":\"p\",\"content\":\"c\"\x7d"⟩
      { name := "write_to_file", originalName := some "write_file",
        params := [("path", "p"), ("content", "c")], partialFlag := false,
        nativeArgs := some (.fields [("path", some (.str "p")),
          ("content", some (.str "c"))]) } rfl).1
  · exact (c8_original_name_iff_alias.2 []
      ⟨"i", "write_file", "\x7b\"path\":\"p\",\"content\":\"c\"\x7d"⟩
      { name := "write_to_file", originalName := some "write_file",
        params := [("path", "p"), ("content", "c")], partialFlag := false,
        nativeArgs := some (.fields [("path", some (.str "p")),
          ("content", some (.str "c"))]) } rfl).2.symm

/-- C1: every record the strict finalize pass returns for a
non-custom (static) tool has partial false, a defined nativeArgs of
object-literal shape, and satisfies the required-field contract of its
resolved name on the parsed arguments; and finalizing the accumulated
text consisting of an empty JSON object for canvas_create (whose
contract requires name) fails with null instead of returning a record
with an undefined name. -/
theorem c1_strict_required_fields :
    (∀ (custom : List String) (tc : RawToolCall) (t : ToolUse),
      parseToolCall custom tc = some (.toolUse t) →
      t.name ∉ custom →
      t.partialFlag = false ∧
      ∃ args l,
        (if tc.arguments = "" then some (Json.obj []) else jsonParse tc.arguments) = some args ∧
        t.nativeArgs = some (.fields l) ∧
        requiredOkG t.name (jgetF args) = true) ∧
    ((finalizeStreamingToolCall []
        (processStreamingChunk
          (startStreamingToolCall initialParserState "c1" "canvas_create") "c1" "\x7b\x7d").2
        "c1").1 = none) := by
  constructor
  · intro custom tc t h hc
    obtain ⟨args, entries, -, -, hargs, -, hguard, ht⟩ := parseToolCall_toolUse_inv custom tc t h
    have hname : t.name = resolveToolAlias tc.name := by rw [ht]
    rw [hname] at hc
    have hsome : (buildNativeArgsG custom (resolveToolAlias tc.name) (jgetF args) args).isSome
        = true := by
      rcases hx : buildNativeArgsG custom (resolveToolAlias tc.name) (jgetF args) args with _ | v
      · exact absurd ⟨by rw [hx]; rfl, hc⟩ hguard
      · rfl
    rcases hx : buildNativeArgsG custom (resolveToolAlias tc.name) (jgetF args) args with _ | v
    · rw [hx] at hsome
      simp at hsome
    · have hreq : requiredOkG (resolveToolAlias tc.name) (jgetF args) = true := by
        rw [← bna_isSome_eq custom (resolveToolAlias tc.name) (jgetF args) args hc, hx]
        rfl
      rcases v with l | j
      · refine ⟨by rw [ht], args, l, hargs, by rw [ht]; exact hx, by rw [hname]; exact hreq⟩
      · exact absurd hx (bna_no_raw custom (resolveToolAlias tc.name) (jgetF args) args j hc)
  · rfl

/-- C1 witness: the general part applied to a successful concrete
canvas_create finalize. -/
theorem c1_witness :
    ({ name := "canvas_create", originalName := none, params := [("name", "x")],
       partialFlag := false,
       nativeArgs := some (.fields [("name", some (.str "x"))]) } : ToolUse).partialFlag
        = false ∧
    ∃ args l,
      (if ("\x7b\"name\":\"x\"\x7d" : String) = "" then some (Json.obj [])
        else jsonParse "\x7b\"name\":\"x\"\x7d") = some args ∧
      ({ name := "canvas_create", originalName := none, params := [("name", "x")],
         partialFlag := false,
         nativeArgs := some (.fields [("name", some (.str "x"))]) } : ToolUse).nativeArgs
          = some (.fields l) ∧
      requiredOkG "canvas_create" (jgetF args) = true :=
  c1_strict_required_fields.1 [] ⟨"i", "canvas_create", "\x7b\"name\":\"x\"\x7d"⟩
    { name := "canvas_create", originalName := none, params := [("name", "x")],
      partialFlag := false, nativeArgs := some (.fields [("name", some (.str "x"))]) }
    rfl (by simp)

/-- C7: each terminal per-call failure at finalize yields null for that
call: an unresolvable name (neither static, custom, nor dynamic), a
malformed dynamic tool name, a strict JSON parse failure, and a
missing required field for a non-custom name; and
finalizeStreamingToolCall leaves the streaming state of every other
in-flight call unchanged. -/
theorem c7_terminal_failures_scoped :
    (∀ (custom : List String) (tc : RawToolCall),
      strStartsWith (normalizeMcpToolName tc.name) mcpNamePre = false →
      resolveToolAlias tc.name ∉ toolNames →
      resolveToolAlias tc.name ∉ custom →
      parseToolCall custom tc = none) ∧
    (∀ (custom : List String) (tc : RawToolCall),
      strStartsWith (normalizeMcpToolName tc.name) mcpNamePre = true →
      parseMcpToolName (normalizeMcpToolName (normalizeMcpToolName tc.name)) = none →
      parseToolCall custom tc = none) ∧
    (∀ (custom : List String) (tc : RawToolCall),
      strStartsWith (normalizeMcpToolName tc.name) mcpNamePre = false →
      tc.arguments ≠ "" → jsonParse tc.arguments = none →
      parseToolCall custom tc = none) ∧
    (∀ (custom : List String) (tc : RawToolCall) (args : Json),
      strStartsWith (normalizeMcpToolName tc.name) mcpNamePre = false →
      (if tc.arguments = "" then some (Json.obj []) else jsonParse tc.arguments) = some args →
      resolveToolAlias tc.name ∉ custom →
      requiredOkG (resolveToolAlias tc.name) (jgetF args) = false →
      parseToolCall custom tc = none) ∧
    (∀ (custom : List String) (st : ParserState) (id other : String), other ≠ id →
      mapGet ((finalizeStreamingToolCall custom st id).2).streamingToolCalls other =
        mapGet st.streamingToolCalls other) := by
  refine ⟨?_, ?_, ?_, ?_, ?_⟩
  · intro custom tc hmcp hstatic hcustom
    unfold parseToolCall
    dsimp only
    rw [hmcp]
    simp only [Bool.false_eq_true, if_false]
    rw [if_pos ⟨hstatic, hcustom⟩]
  · intro custom tc hmcp hbadname
    unfold parseToolCall
    dsimp only
    rw [hmcp]
    simp only [if_true]
    unfold parseDynamicMcpTool
    dsimp only
    rcases hp : jsonParse (if tc.arguments = "" then "\x7b\x7d" else tc.arguments) with _ | a
    · rfl
    · rw [hbadname]
      rfl
  · intro custom tc hmcp hne hbad
    unfold parseToolCall
    dsimp only
    rw [hmcp]
    simp only [Bool.false_eq_true, if_false]
    split
    · rfl
    · rw [hbad]
  · intro custom tc args hmcp hargs hcustom hreq
    have hnone : (buildNativeArgsG custom (resolveToolAlias tc.name) (jgetF args) args).isNone
        = true := by
      have hs := bna_isSome_eq custom (resolveToolAlias tc.name) (jgetF args) args hcustom
      rw [hreq] at hs
      rcases hx : buildNativeArgsG custom (resolveToolAlias tc.name) (jgetF args) args
      · rfl
      · rw [hx] at hs
        simp at hs
    unfold parseToolCall
    dsimp only
    rw [hmcp]
    simp only [Bool.false_eq_true, if_false]
    split
    · rfl
    · rw [hargs]
      dsimp only
      rcases hent : jsEntriesE args with _ | entries
      · rfl
      · dsimp only
        rw [if_pos ⟨hnone, hcustom⟩]
  · intro custom st id other hne
    rcases hm : mapGet st.streamingToolCalls id with _ | e
    · rw [finalizeStreamingToolCall_unknown custom st id hm]
    · rw [finalizeStreamingToolCall_known custom st id e hm]
      exact mapGet_mapDelete_ne st.streamingToolCalls id other hne

/-- C7 witness: the theorem applied at four concrete failing calls
and a concrete frame check. -/
theorem c7_witness :
    parseToolCall [] { id := "i", name := "not_a_tool", arguments := "\x7b\x7d" } = none ∧
    parseToolCall [] { id := "i", name := "mcp--onlyOneSegment", arguments := "" } = none ∧
    parseToolCall [] { id := "i", name := "read_file", arguments := "\x7bbad" } = none ∧
    parseToolCall [] { id := "i", name := "browser_navigate", arguments := "\x7b\x7d" } = none ∧
    mapGet ((finalizeStreamingToolCall [] initialParserState "a").2).streamingToolCalls "b" =
      mapGet initialParserState.streamingToolCalls "b" :=
  ⟨c7_terminal_failures_scoped.1 [] _ rfl (by decide) (by simp),
   c7_terminal_failures_scoped.2.1 [] _ rfl rfl,
   c7_terminal_failures_scoped.2.2.1 [] _ rfl (by decide) rfl,
   c7_terminal_failures_scoped.2.2.2.1 [] _ (Json.obj []) rfl rfl (by simp) rfl,
   c7_terminal_failures_scoped.2.2.2.2 [] initialParserState "a" "b" (by decide)⟩

/-- C2: for a call id tracked under a name whose canonical resolution
is not a registered custom tool, if the last delta produces a partial
record and the accumulated text then strict-parses at finalize into a
ToolUse record, every typed field present in the partial record is
present with an equal value in the finalized record. -/
theorem c2_last_partial_fields_subset_of_final
    (custom : List String) (st : ParserState) (id chunk : String)
    (e : StreamEntry) (t : ToolUse) (st' stf : ParserState) (tf : ToolUse)
    (he : mapGet st.streamingToolCalls id = some e)
    (hcustom : resolveToolAlias e.name ∉ custom)
    (hp : processStreamingChunk st id chunk = (some t, st'))
    (hf : finalizeStreamingToolCall custom st' id = (some (.toolUse tf), stf)) :
    ∀ kv ∈ typedFields t, kv ∈ typedFields tf := by
  intro kv hkv
  obtain ⟨hmcp, pa, hpa, ht, hst'⟩ := processStreamingChunk_some_inv st id chunk e t st' he hp
  have he' : mapGet st'.streamingToolCalls id =
      some { e with argumentsAccumulator := e.argumentsAccumulator ++ chunk } := by
    rw [hst']
    exact mapGet_mapSet_self _ _ _
  rw [finalizeStreamingToolCall_known custom st' id _ he'] at hf
  injection hf with hpt hstf
  obtain ⟨args, entries, hmcp2, hknown, hargs, hent, hna, htf⟩ :=
    parseToolCall_toolUse_inv custom _ tf hpt
  dsimp only at hargs hna htf
  have hpa2 : jsonParse (e.argumentsAccumulator ++ chunk) = some pa := hpa
  have hpaargs : pa = args := by
    by_cases hemp : e.argumentsAccumulator ++ chunk = ""
    · rw [hemp] at hpa2
      have hnone : jsonParse "" = none := rfl
      rw [hnone] at hpa2
      exact Option.noConfusion hpa2
    · rw [if_neg hemp] at hargs
      exact Option.some.inj (hpa2.symm.trans hargs)
  subst hpaargs
  rw [ht] at hkv
  rw [htf]
  unfold typedFields createPartialToolUse at hkv
  dsimp only at hkv
  rw [jgetF_jsOr] at hkv
  unfold typedFields
  dsimp only
  rcases hvp : buildPartialNativeArgsG (resolveToolAlias e.name) (jgetF pa) with _ | vp
  · rw [hvp] at hkv
    exact absurd hkv (by simp [presentFieldsO])
  · rw [hvp] at hkv
    rcases hvf : buildNativeArgsG custom (resolveToolAlias e.name) (jgetF pa) pa with _ | vf
    · exact absurd ⟨by rw [hvf]; rfl, hcustom⟩ hna
    · exact partial_subset_final custom (resolveToolAlias e.name) (jgetF pa) pa vp vf kv hvp hvf hkv

/-- C2 witness: the theorem applied at a concrete browser_navigate
stream whose single delta carries a complete JSON document. -/
theorem c2_witness :
    ("url", Json.str "http://x") ∈ typedFields { name := "browser_navigate", originalName := none, params := [("url", "http://x")], partialFlag := true, nativeArgs := some (.fields [("url", some (.str "http://x"))]) } ∧
    ("url", Json.str "http://x") ∈ typedFields { name := "browser_navigate", originalName := none, params := [("url", "http://x")], partialFlag := false, nativeArgs := some (.fields [("url", some (.str "http://x"))]) } := by
  have hA : ("url", Json.str "http://x") ∈ typedFields { name := "browser_navigate", originalName := none, params := [("url", "http://x")], partialFlag := true, nativeArgs := some (.fields [("url", some (.str "http://x"))]) } := by
    simp [typedFields, presentFieldsO, presentFields]
  refine ⟨hA, ?_⟩
  exact c2_last_partial_fields_subset_of_final []
    { streamingToolCalls := [("c1", { id := "c1", name := "browser_navigate", argumentsAccumulator := "" })], rawChunkTracker := [] }
    "c1" "\x7b\"url\":\"http://x\"\x7d"
    { id := "c1", name := "browser_navigate", argumentsAccumulator := "" }
    { name := "browser_navigate", originalName := none, params := [("url", "http://x")], partialFlag := true, nativeArgs := some (.fields [("url", some (.str "http://x"))]) }
    { streamingToolCalls := [("c1", { id := "c1", name := "browser_navigate", argumentsAccumulator := "\x7b\"url\":\"http://x\"\x7d" })], rawChunkTracker := [] }
    initialParserState
    { name := "browser_navigate", originalName := none, params := [("url", "http://x")], partialFlag := false, nativeArgs := some (.fields [("url", some (.str "http://x"))]) }
    rfl (by simp) rfl rfl ("url", Json.str "http://x") hA

/-- C3: interleaved delta fragments accumulate per id as the exact
in-order concatenation of the fragments addressed to that id; and
feeding an index's fragments through the raw chunk tracker yields the
same bytes: the emitted delta payloads followed by the residual buffer
equal the concatenation of the fragments, and once the start event has
flushed the buffer the emitted payloads alone are byte-identical to it. -/
theorem c3_accumulation_and_tracker_equivalence :
    (∀ (ds : List (String × String)) (st : ParserState) (id : String) (e : StreamEntry),
      mapGet st.streamingToolCalls id = some e →
      mapGet (applyDeltas st ds).streamingToolCalls id =
        some { e with argumentsAccumulator := (e.argumentsAccumulator ++ concatStr ((ds.filter (fun d => d.1 = id)).map (fun d => d.2))) }) ∧
    (∀ (n : Nat) (c0 : RawChunk) (cs : List RawChunk) (st : ParserState) (i : String),
      (∀ c ∈ c0 :: cs, c.index = n) →
      mapGet st.rawChunkTracker n = none →
      c0.id = some i → i ≠ "" →
      ∃ e', mapGet ((applyRawChunks st (c0 :: cs)).2).rawChunkTracker n = some e' ∧
        (e'.hasStarted = true → e'.deltaBuffer = []) ∧
        concatStr (deltaTexts (applyRawChunks st (c0 :: cs)).1) ++ concatStr e'.deltaBuffer =
          concatStr ((c0 :: cs).map argsText)) := by
  refine ⟨fun ds => applyDeltas_accumulates ds, ?_⟩
  intro n c0 cs st i hall h0 hid hne
  have hidx0 : c0.index = n := hall c0 (List.mem_cons_self _ _)
  rw [← hidx0] at h0
  obtain ⟨e1, h1, hid1, hb1, heq1⟩ := processRawChunk_create st c0 i h0 hid hne
  rw [hidx0] at h1
  obtain ⟨e2, h2, hid2, hb2, hmono2, heq2⟩ :=
    applyRawChunks_invariant n cs (processRawChunk st c0).2 e1
      (fun d hd => hall d (List.mem_cons_of_mem _ hd)) h1 hb1
  have hsplit1 : (applyRawChunks st (c0 :: cs)).1
      = (processRawChunk st c0).1 ++ (applyRawChunks (processRawChunk st c0).2 cs).1 := rfl
  have hsplit2 : (applyRawChunks st (c0 :: cs)).2
      = (applyRawChunks (processRawChunk st c0).2 cs).2 := rfl
  refine ⟨e2, by rw [hsplit2]; exact h2, hb2, ?_⟩
  rw [hsplit1, deltaTexts_append, concatStr_append]
  calc concatStr (deltaTexts (processRawChunk st c0).1) ++
        concatStr (deltaTexts (applyRawChunks (processRawChunk st c0).2 cs).1) ++
        concatStr e2.deltaBuffer
      = concatStr (deltaTexts (processRawChunk st c0).1) ++
          (concatStr (deltaTexts (applyRawChunks (processRawChunk st c0).2 cs).1) ++
           concatStr e2.deltaBuffer) := by rw [String.append_assoc]
    _ = concatStr (deltaTexts (processRawChunk st c0).1) ++
          (concatStr e1.deltaBuffer ++ concatStr (cs.map argsText)) := by rw [heq2]
    _ = concatStr (deltaTexts (processRawChunk st c0).1) ++ concatStr e1.deltaBuffer ++
          concatStr (cs.map argsText) := by rw [String.append_assoc]
    _ = argsText c0 ++ concatStr (cs.map argsText) := by rw [heq1]
    _ = concatStr ((c0 :: cs).map argsText) := by rw [List.map_cons, concatStr_cons]

/-- C3 witness: the theorem applied at a concrete interleaved delta
sequence and a concrete two-chunk raw stream. -/
theorem c3_witness :
    mapGet (applyDeltas { streamingToolCalls := [("a", { id := "a", name := "read_file", argumentsAccumulator := "" })], rawChunkTracker := [] } [("a", "\x7b\"pa"), ("b", "zz"), ("a", "th\":\"p\"\x7d")]).streamingToolCalls "a" =
      some { id := "a", name := "read_file", argumentsAccumulator := "\x7b\"path\":\"p\"\x7d" } ∧
    (∃ e', mapGet ((applyRawChunks initialParserState [{ index := 0, id := some "x", name := some "read_file", args := some "ab" }, { index := 0, id := none, name := none, args := some "cd" }]).2).rawChunkTracker 0 = some e' ∧
      (e'.hasStarted = true → e'.deltaBuffer = []) ∧
      concatStr (deltaTexts (applyRawChunks initialParserState [{ index := 0, id := some "x", name := some "read_file", args := some "ab" }, { index := 0, id := none, name := none, args := some "cd" }]).1) ++ concatStr e'.deltaBuffer =
        concatStr ([{ index := 0, id := some "x", name := some "read_file", args := some "ab" }, { index := 0, id := none, name := none, args := some "cd" }].map argsText)) := by
  refine ⟨?_, ?_⟩
  · exact c3_accumulation_and_tracker_equivalence.1
      [("a", "\x7b\"pa"), ("b", "zz"), ("a", "th\":\"p\"\x7d")]
      { streamingToolCalls := [("a", { id := "a", name := "read_file", argumentsAccumulator := "" })], rawChunkTracker := [] }
      "a" { id := "a", name := "read_file", argumentsAccumulator := "" } rfl
  · exact c3_accumulation_and_tracker_equivalence.2 0
      { index := 0, id := some "x", name := some "read_file", args := some "ab" }
      [{ index := 0, id := none, name := none, args := some "cd" }]
      initialParserState "x" (by decide) rfl rfl (by decide)
